import Mathlib

/-!
Verification of the graph model and traversal engine of the `dsa` repository
(`src/react/src/models/GraphModels.ts`, `src/react/src/models/GraphAlgorithms.ts`,
`src/react/src/utils/GraphUtils.ts`).

The embedding mirrors the TypeScript source:
* JS `Map` objects become insertion-ordered association lists (`mapSet`
  replaces in place or appends, `mapGet` finds the first entry, `mapDelete`
  filters the key out), and JS `Set` objects become insertion-ordered
  duplicate-free lists.
* JS numbers that can be `Infinity` become the type `JNum` (a finite integer
  or positive infinity); the JS truthiness coercion `x || d` (where the
  number `0` is falsy) is modelled by `jsOr`.
* The repository contains two variants of `GraphAlgorithms.ts`; they are
  embedded in namespaces `V1` (the variant whose BFS starts at line 14 of the
  combined file) and `V2` (the unified variant that also records the
  traversed edge).
* Loops are given explicit fuel; the top-level functions supply fuel that is
  generous for every execution that terminates in the source semantics, and
  every property proved below either evaluates the loop on concrete input or
  is independent of the amount of fuel.
-/

/-- String of a single character, used to build source-faithful description
strings that contain characters awkward to write directly. -/
def charStr (n : Nat) : String := String.singleton (Char.ofNat n)

/-- The possessive marker, as it appears in the source description strings. -/
def apos : String := charStr 39

/-- JS number restricted to the values that occur in the graph code: a finite
integer or `Infinity`. -/
inductive JNum where
  | fin : Int → JNum
  | inf : JNum
deriving DecidableEq, Repr

namespace JNum

/-- JS `<` on these numbers. -/
def lt : JNum → JNum → Bool
  | fin a, fin b => a < b
  | fin _, inf => true
  | inf, _ => false

/-- JS `+` on these numbers (`Infinity + x = Infinity`). -/
def add : JNum → JNum → JNum
  | fin a, fin b => fin (a + b)
  | _, _ => inf

/-- JS number rendering: finite values print their integer, `Infinity` prints
as the word. -/
def toString : JNum → String
  | fin a => ToString.toString a
  | inf => "Infinity"

end JNum

/-- JS `m.get(k) || d`: `undefined` and the falsy number `0` both fall through
to the default. -/
def jsOr (o : Option JNum) (d : JNum) : JNum :=
  match o with
  | none => d
  | some v => if v = JNum.fin 0 then d else v

/-- Insertion-ordered association list standing in for a JS `Map`. -/
def mapGet (m : List (String × α)) (k : String) : Option α :=
  (m.find? (fun p => p.1 = k)).map (fun p => p.2)

/-- JS `Map.set`: replace the value at an existing key in place, otherwise
append a fresh entry. -/
def mapSet (m : List (String × α)) (k : String) (v : α) : List (String × α) :=
  match m with
  | [] => [(k, v)]
  | (k0, v0) :: rest => if k0 = k then (k, v) :: rest else (k0, v0) :: mapSet rest k v

/-- JS `Map.delete` (keys are unique in a JS map, so filtering is faithful). -/
def mapDelete (m : List (String × α)) (k : String) : List (String × α) :=
  m.filter (fun p => p.1 ≠ k)

/-- JS `Map.has`. -/
def mapHasKey (m : List (String × α)) (k : String) : Bool :=
  (mapGet m k).isSome

/-- JS `Set.add`: append if absent. -/
def setAdd (s : List String) (x : String) : List String :=
  if x ∈ s then s else s ++ [x]

/-- JS `Set.delete`. -/
def setDelete (s : List String) (x : String) : List String :=
  s.filter (fun y => y ≠ x)

/-- JS `Set.has`. -/
def setHas (s : List String) (x : String) : Bool :=
  s.contains x

/-! Embedding of `models/GraphModels.ts`. -/

/-- Interface `Node` of `GraphModels.ts`. -/
structure Node where
  id : String
  label : String
deriving DecidableEq, Repr

/-- Interface `Edge` of `GraphModels.ts` (`weight?: number` becomes an
`Option`). -/
structure Edge where
  id : String
  source : String
  target : String
  weight : Option Int
  directed : Bool
deriving DecidableEq, Repr

/-- Interface `GraphData` of `GraphModels.ts`. -/
structure GraphData where
  nodes : List Node
  edges : List Edge
  directed : Bool
  weighted : Bool
deriving DecidableEq, Repr

/-- Class `Graph` of `GraphModels.ts`: its private `Map`/`Set` state. -/
structure Graph where
  nodes : List (String × Node)
  edges : List (String × Edge)
  adjacencyList : List (String × List String)
  directed : Bool
  weighted : Bool
deriving DecidableEq, Repr

/-- Entry of the `getAdjacencyList()` result. -/
structure AdjEntry where
  nodeId : String
  adjacentNodes : List String
deriving DecidableEq, Repr

namespace Graph

/-- Constructor `new Graph(directed, weighted)`. -/
def empty (directed weighted : Bool) : Graph :=
  { nodes := [], edges := [], adjacencyList := [], directed := directed, weighted := weighted }

/-- Helper: `this.adjacencyList.get(k)?.add(x)` (optional chaining: no entry
means no mutation). -/
def adjAdd (adj : List (String × List String)) (k x : String) : List (String × List String) :=
  match mapGet adj k with
  | none => adj
  | some s => mapSet adj k (setAdd s x)

/-- Helper: `this.adjacencyList.get(k)?.delete(x)`. -/
def adjDelete (adj : List (String × List String)) (k x : String) : List (String × List String) :=
  match mapGet adj k with
  | none => adj
  | some s => mapSet adj k (setDelete s x)

/-- Method `addNode`. A thrown error is modelled as an `Except.error` result;
the returned graph is the state of `this` after the call (the duplicate check
precedes every mutation, so the error branch returns the state unchanged). -/
def addNode (g : Graph) (id : String) (label : String) : Except String Node × Graph :=
  if mapHasKey g.nodes id then
    (Except.error ("Node with id " ++ id ++ " already exists"), g)
  else
    let node : Node := { id := id, label := label }
    (Except.ok node,
      { g with nodes := mapSet g.nodes id node,
               adjacencyList := mapSet g.adjacencyList id [] })

/-- Method `getNode`. -/
def getNode (g : Graph) (id : String) : Option Node :=
  mapGet g.nodes id

/-- Method `removeNode`. -/
def removeNode (g : Graph) (id : String) : Bool × Graph :=
  if mapHasKey g.nodes id then
    (true,
      { g with
        edges := g.edges.filter (fun p => ¬ (p.2.source = id ∨ p.2.target = id)),
        adjacencyList := (mapDelete g.adjacencyList id).map
          (fun p => (p.1, setDelete p.2 id)),
        nodes := mapDelete g.nodes id })
  else
    (false, g)

/-- Method `addEdge`. -/
def addEdge (g : Graph) (sourceId targetId : String) (weight : Option Int) :
    Except String Edge × Graph :=
  if ¬ (mapHasKey g.nodes sourceId ∧ mapHasKey g.nodes targetId) then
    (Except.error "Source or target node does not exist", g)
  else
    let edgeId := sourceId ++ "-" ++ targetId
    if mapHasKey g.edges edgeId then
      (Except.error ("Edge from " ++ sourceId ++ " to " ++ targetId ++ " already exists"), g)
    else
      let edge : Edge :=
        { id := edgeId, source := sourceId, target := targetId,
          directed := g.directed,
          weight := if g.weighted then weight else none }
      let adj1 := adjAdd g.adjacencyList sourceId targetId
      let adj2 := if ¬ g.directed then adjAdd adj1 targetId sourceId else adj1
      (Except.ok edge, { g with edges := mapSet g.edges edgeId edge, adjacencyList := adj2 })

/-- Method `getEdge`. -/
def getEdge (g : Graph) (sourceId targetId : String) : Option Edge :=
  mapGet g.edges (sourceId ++ "-" ++ targetId)

/-- Method `removeEdge`. -/
def removeEdge (g : Graph) (sourceId targetId : String) : Bool × Graph :=
  let edgeId := sourceId ++ "-" ++ targetId
  if mapHasKey g.edges edgeId then
    let adj1 := adjDelete g.adjacencyList sourceId targetId
    let adj2 := if ¬ g.directed then adjDelete adj1 targetId sourceId else adj1
    (true, { g with edges := mapDelete g.edges edgeId, adjacencyList := adj2 })
  else
    (false, g)

/-- Method `getGraphData`. -/
def getGraphData (g : Graph) : GraphData :=
  { nodes := g.nodes.map (fun p => p.2),
    edges := g.edges.map (fun p => p.2),
    directed := g.directed,
    weighted := g.weighted }

/-- Method `getAdjacencyList`. -/
def getAdjacencyList (g : Graph) : List AdjEntry :=
  g.adjacencyList.map (fun p => { nodeId := p.1, adjacentNodes := p.2 })

/-- Neighbor list actually used by the traversals:
`adjList.find(item => item.nodeId === cur)?.adjacentNodes || []` (an empty
array is falsy, so the fallback is the empty list either way). -/
def neighborsOf (g : Graph) (cur : String) : List String :=
  match (g.getAdjacencyList.find? (fun item => item.nodeId = cur)) with
  | none => []
  | some item => item.adjacentNodes

end Graph

/-! Embedding of `utils/GraphUtils.ts`. -/

/-- JS `Array.join(sep)`. -/
def jsJoin (sep : String) : List String → String
  | [] => ""
  | [x] => x
  | x :: y :: rest => x ++ sep ++ jsJoin sep (y :: rest)

/-- JS indexing `l[i]`, which yields `undefined` (printed as the word inside a
string concatenation) when out of bounds. -/
def jsIndexStr (l : List String) (i : Nat) : String :=
  match l.get? i with
  | some s => s
  | none => "undefined"

/-- Function `createSampleGraph` of `GraphUtils.ts` (the `try` block never
throws for this fixed construction sequence). -/
def createSampleGraph (directed weighted : Bool) : Graph :=
  let g := Graph.empty directed weighted
  let g := (g.addNode "1" "1").2
  let g := (g.addNode "2" "2").2
  let g := (g.addNode "3" "3").2
  let g := (g.addNode "4" "4").2
  let g := (g.addNode "5" "5").2
  if weighted then
    let g := (g.addEdge "1" "2" (some 10)).2
    let g := (g.addEdge "1" "3" (some 5)).2
    let g := (g.addEdge "2" "3" (some 2)).2
    let g := (g.addEdge "2" "4" (some 1)).2
    let g := (g.addEdge "3" "5" (some 7)).2
    (g.addEdge "4" "5" (some 4)).2
  else
    let g := (g.addEdge "1" "2" none).2
    let g := (g.addEdge "1" "3" none).2
    let g := (g.addEdge "2" "3" none).2
    let g := (g.addEdge "2" "4" none).2
    let g := (g.addEdge "3" "5" none).2
    (g.addEdge "4" "5" none).2

/-- Function `formatAdjacencyMatrix` of `GraphUtils.ts`. -/
def formatAdjacencyMatrix (matrix : List (List Int)) (nodeIds : List String) : String :=
  if matrix.length = 0 ∨ nodeIds.length = 0 then
    "No data available"
  else
    let header := "  " ++ jsJoin " " nodeIds ++ "\n"
    (List.range matrix.length).foldl
      (fun acc i =>
        acc ++ jsIndexStr nodeIds i ++ " " ++
          jsJoin " " (((matrix.get? i).getD []).map (fun n => ToString.toString n)) ++ "\n")
      header

/-- Function `formatAdjacencyList` of `GraphUtils.ts` (`join(", ") || "none"`:
the empty string is falsy). -/
def formatAdjacencyList (adjList : List AdjEntry) : String :=
  adjList.foldl
    (fun acc item =>
      let j := jsJoin ", " item.adjacentNodes
      acc ++ item.nodeId ++ " -> " ++ (if j = "" then "none" else j) ++ "\n")
    ""

/-- Fuel that dominates the iteration count of every traversal loop below:
BFS dequeues at most one entry per enqueue and enqueues only newly visited
nodes, DFS pops at most one entry per push, and each push consumes one
adjacency entry. -/
def traversalFuel (g : Graph) : Nat :=
  2 + 2 * g.nodes.length +
    2 * g.adjacencyList.foldl (fun acc p => acc + 1 + p.2.length) 0

/-! Embedding of the first variant of `models/GraphAlgorithms.ts` (the one
whose snapshots carry only visited/current/queue-or-stack). -/

namespace V1

/-- Interface `TraversalStep` of the first variant (`queue?`/`stack?` are
optional fields: absent for the algorithm that does not use them). -/
structure TraversalStep where
  visited : List String
  current : Option String
  queue : Option (List String)
  stack : Option (List String)
  description : String
deriving DecidableEq, Repr

/-- Body of the BFS `while` loop, with explicit fuel. Returns the emitted
steps and the final visited set. -/
def bfsLoop (g : Graph) : Nat → List String → List String →
    List TraversalStep × List String
  | 0, visited, _ => ([], visited)
  | fuel + 1, visited, queue =>
    match queue with
    | [] => ([], visited)
    | cur :: rest =>
      let step1 : TraversalStep :=
        { visited := visited, current := some cur, queue := some rest, stack := none,
          description := "Dequeue node " ++ cur }
      let res := (g.neighborsOf cur).foldl
        (fun (st : List String × List String × List TraversalStep) nb =>
          if setHas st.1 nb then st
          else
            let vis2 := setAdd st.1 nb
            let q2 := st.2.1 ++ [nb]
            (vis2, q2, st.2.2 ++
              [{ visited := vis2, current := some cur, queue := some q2, stack := none,
                 description := "Visit node " ++ nb ++ " from " ++ cur }]))
        (visited, rest, [])
      let tail := bfsLoop g fuel res.1 res.2.1
      (step1 :: res.2.2 ++ tail.1, tail.2)

/-- Function `breadthFirstTraversal` of the first variant. -/
def breadthFirstTraversal (g : Graph) (startNodeId : String) : List TraversalStep :=
  let graphData := g.getGraphData
  if (graphData.nodes.find? (fun node => node.id = startNodeId)).isNone then
    [{ visited := [], current := none, queue := some [], stack := none,
       description := "Start node " ++ startNodeId ++ " not found in the graph." }]
  else
    let visited := [startNodeId]
    let queue := [startNodeId]
    let initStep : TraversalStep :=
      { visited := visited, current := none, queue := some queue, stack := none,
        description := "Initialize BFS with start node " ++ startNodeId }
    let res := bfsLoop g (traversalFuel g) visited queue
    initStep :: res.1 ++
      [{ visited := res.2, current := none, queue := some [], stack := none,
         description := "BFS traversal complete" }]

/-- Body of the DFS `while` loop of the first variant (pop-then-expand, the
JS array is used as a stack at its end, so the list is kept in array order). -/
def dfsLoop (g : Graph) : Nat → List String → List String →
    List TraversalStep × List String
  | 0, visited, _ => ([], visited)
  | fuel + 1, visited, stack =>
    match stack.getLast? with
    | none => ([], visited)
    | some cur =>
      let rest := stack.dropLast
      if setHas visited cur then
        dfsLoop g fuel visited rest
      else
        let vis2 := setAdd visited cur
        let step1 : TraversalStep :=
          { visited := vis2, current := some cur, queue := none, stack := some rest,
            description := "Visit node " ++ cur }
        let res := ((g.neighborsOf cur).reverse).foldl
          (fun (st : List String × List TraversalStep) nb =>
            if setHas vis2 nb then st
            else
              let st2 := st.1 ++ [nb]
              (st2, st.2 ++
                [{ visited := vis2, current := some cur, queue := none, stack := some st2,
                   description := "Push node " ++ nb ++ " to stack" }]))
          (rest, [])
        let tail := dfsLoop g fuel vis2 res.1
        (step1 :: res.2 ++ tail.1, tail.2)

/-- Function `depthFirstTraversal` of the first variant. -/
def depthFirstTraversal (g : Graph) (startNodeId : String) : List TraversalStep :=
  let graphData := g.getGraphData
  if (graphData.nodes.find? (fun node => node.id = startNodeId)).isNone then
    [{ visited := [], current := none, queue := none, stack := some [],
       description := "Start node " ++ startNodeId ++ " not found in the graph." }]
  else
    let stack := [startNodeId]
    let initStep : TraversalStep :=
      { visited := [], current := none, queue := none, stack := some stack,
        description := "Initialize DFS with start node " ++ startNodeId }
    let res := dfsLoop g (traversalFuel g) [] stack
    initStep :: res.1 ++
      [{ visited := res.2, current := none, queue := none, stack := some [],
         description := "DFS traversal complete" }]

/-- Interface `DijkstraStep` of the first variant. -/
structure DijkstraStep where
  visited : List String
  current : Option String
  distances : List (String × JNum)
  previous : List (String × Option String)
  description : String
deriving DecidableEq, Repr

/-- Initial distance map of the first Dijkstra variant. -/
def initDistances (nodes : List Node) (startNodeId : String) : List (String × JNum) :=
  nodes.foldl
    (fun m node =>
      mapSet m node.id (if node.id = startNodeId then JNum.fin 0 else JNum.inf))
    []

/-- Initial predecessor map of the first Dijkstra variant. -/
def initPrevious (nodes : List Node) : List (String × Option String) :=
  nodes.foldl (fun m node => mapSet m node.id none) []

/-- One comparison of the minimum-distance scan of the first Dijkstra
variant, including the JS falsy-zero coercion
`distances.get(node.id) || Infinity`. -/
def scanStep (visited : List String) (distances : List (String × JNum))
    (st : JNum × Option String) (node : Node) : JNum × Option String :=
  if ¬ setHas visited node.id ∧ (jsOr (mapGet distances node.id) JNum.inf).lt st.1 then
    (jsOr (mapGet distances node.id) JNum.inf, some node.id)
  else st

/-- Minimum-distance scan of the first Dijkstra variant. -/
def findMinNode (nodes : List Node) (visited : List String)
    (distances : List (String × JNum)) : JNum × Option String :=
  nodes.foldl (scanStep visited distances) (JNum.inf, none)

/-- State threaded through the first Dijkstra variant loop. -/
structure DijkState1 where
  visited : List String
  distances : List (String × JNum)
  previous : List (String × Option String)
deriving DecidableEq, Repr

/-- Body of the `while (visited.size < n)` loop of the first Dijkstra
variant. -/
def dijkstraLoop (g : Graph) (nodes : List Node) : Nat → DijkState1 →
    List DijkstraStep × DijkState1
  | 0, st => ([], st)
  | fuel + 1, st =>
    if st.visited.length < nodes.length then
      let scan := findMinNode nodes st.visited st.distances
      match scan.2 with
      | none =>
        ([{ visited := st.visited, current := none, distances := st.distances,
            previous := st.previous, description := "No more reachable nodes" }], st)
      | some cur =>
        if scan.1 = JNum.inf then
          ([{ visited := st.visited, current := none, distances := st.distances,
              previous := st.previous, description := "No more reachable nodes" }], st)
        else
          let vis2 := setAdd st.visited cur
          let distStr :=
            match mapGet st.distances cur with
            | some d => d.toString
            | none => "undefined"
          let step1 : DijkstraStep :=
            { visited := vis2, current := some cur, distances := st.distances,
              previous := st.previous,
              description := "Visit node " ++ cur ++ " with distance " ++ distStr }
          let res := (g.neighborsOf cur).foldl
            (fun (acc : DijkState1 × List DijkstraStep) nb =>
              if setHas vis2 nb then acc
              else
                let edge := g.getEdge cur nb
                let weight : JNum :=
                  match edge with
                  | some e =>
                    match e.weight with
                    | some w => JNum.fin w
                    | none => JNum.fin 1
                  | none => JNum.fin 1
                let newDistance := (jsOr (mapGet acc.1.distances cur) (JNum.fin 0)).add weight
                if newDistance.lt (jsOr (mapGet acc.1.distances nb) JNum.inf) then
                  let dist2 := mapSet acc.1.distances nb newDistance
                  let prev2 := mapSet acc.1.previous nb (some cur)
                  ({ visited := vis2, distances := dist2, previous := prev2 },
                    acc.2 ++
                      [{ visited := vis2, current := some cur, distances := dist2,
                         previous := prev2,
                         description := "Update distance to " ++ nb ++ " via " ++ cur ++
                           " to " ++ newDistance.toString }])
                else acc)
            ({ visited := vis2, distances := st.distances, previous := st.previous }, [])
          let tail := dijkstraLoop g nodes fuel res.1
          (step1 :: res.2 ++ tail.1, tail.2)
    else ([], st)

/-- Function `dijkstraAlgorithm` of the first variant. -/
def dijkstraAlgorithm (g : Graph) (startNodeId : String) : List DijkstraStep :=
  let graphData := g.getGraphData
  if (graphData.nodes.find? (fun node => node.id = startNodeId)).isNone then
    [{ visited := [], current := none, distances := [], previous := [],
       description := "Start node " ++ startNodeId ++ " not found in the graph." }]
  else
    let distances := initDistances graphData.nodes startNodeId
    let previous := initPrevious graphData.nodes
    let initStep : DijkstraStep :=
      { visited := [], current := none, distances := distances, previous := previous,
        description := "Initialize Dijkstra" ++ apos ++ "s algorithm with start node " ++
          startNodeId }
    let res := dijkstraLoop g graphData.nodes (graphData.nodes.length + 1)
      { visited := [], distances := distances, previous := previous }
    initStep :: res.1 ++
      [{ visited := res.2.visited, current := none, distances := res.2.distances,
         previous := res.2.previous,
         description := "Dijkstra" ++ apos ++ "s algorithm complete" }]

end V1

/-! Embedding of the second (unified) variant of `models/GraphAlgorithms.ts`,
whose snapshots also record the traversed edge. -/

namespace V2

/-- Interface `TraversalStep` of the unified variant. -/
structure TraversalStep where
  visited : List String
  current : Option String
  queue : Option (List String)
  stack : Option (List String)
  sourceNode : Option String
  targetNode : Option String
  description : String
deriving DecidableEq, Repr

/-- Body of the BFS `while` loop of the unified variant. -/
def bfsLoop (g : Graph) : Nat → List String → List String →
    List TraversalStep × List String
  | 0, visited, _ => ([], visited)
  | fuel + 1, visited, queue =>
    match queue with
    | [] => ([], visited)
    | cur :: rest =>
      let step1 : TraversalStep :=
        { visited := visited, current := some cur, queue := some rest, stack := none,
          sourceNode := none, targetNode := none,
          description := "Process: Dequeue and examine node " ++ cur ++ "." }
      let neighbors := g.neighborsOf cur
      let observeSteps : List TraversalStep :=
        if neighbors.length = 0 then
          [{ visited := visited, current := some cur, queue := some rest, stack := none,
             sourceNode := none, targetNode := none,
             description := "Observe: Node " ++ cur ++ " has no unvisited neighbors." }]
        else []
      let res := neighbors.foldl
        (fun (st : List String × List String × List TraversalStep) nb =>
          if setHas st.1 nb then
            (st.1, st.2.1, st.2.2 ++
              [{ visited := st.1, current := some cur, queue := some st.2.1, stack := none,
                 sourceNode := some cur, targetNode := some nb,
                 description := "Skip: Node " ++ nb ++ " already visited. Edge (" ++ cur ++
                   " → " ++ nb ++ ")." }])
          else
            let vis2 := setAdd st.1 nb
            let q2 := st.2.1 ++ [nb]
            (vis2, q2, st.2.2 ++
              [{ visited := vis2, current := some cur, queue := some q2, stack := none,
                 sourceNode := some cur, targetNode := some nb,
                 description := "Discover: Mark node " ++ nb ++
                   " as visited and enqueue. Edge (" ++ cur ++ " → " ++ nb ++ ")." }]))
        (visited, rest, [])
      let tail := bfsLoop g fuel res.1 res.2.1
      (step1 :: observeSteps ++ res.2.2 ++ tail.1, tail.2)

/-- Function `breadthFirstTraversal` of the unified variant. -/
def breadthFirstTraversal (g : Graph) (startNodeId : String) : List TraversalStep :=
  let graphData := g.getGraphData
  if (graphData.nodes.find? (fun node => node.id = startNodeId)).isNone then
    [{ visited := [], current := none, queue := some [], stack := none,
       sourceNode := none, targetNode := none,
       description := "Error: Start node " ++ startNodeId ++ " not found in the graph." }]
  else
    let visited := [startNodeId]
    let queue := [startNodeId]
    let initStep : TraversalStep :=
      { visited := visited, current := some startNodeId, queue := some queue, stack := none,
        sourceNode := none, targetNode := none,
        description := "Initialize: Mark start node " ++ startNodeId ++
          " as visited and add to queue." }
    let res := bfsLoop g (traversalFuel g) visited queue
    initStep :: res.1 ++
      [{ visited := res.2, current := none, queue := some [], stack := none,
         sourceNode := none, targetNode := none,
         description := "Complete: BFS traversal finished." }]

/-- Scan for the first unvisited neighbor in adjacency order (the `for` loop
with `break` inside the unified DFS). -/
def firstUnvisited (neighbors : List String) (visited : List String) : Option String :=
  neighbors.find? (fun nb => ¬ setHas visited nb)

/-- Body of the peek-then-expand DFS `while` loop of the unified variant (the
JS array is a stack at its end, so the list is kept in array order). -/
def dfsLoop (g : Graph) : Nat → List String → List String →
    List TraversalStep × List String
  | 0, visited, _ => ([], visited)
  | fuel + 1, visited, stack =>
    match stack.getLast? with
    | none => ([], visited)
    | some cur =>
      match firstUnvisited (g.neighborsOf cur) visited with
      | some nextNode =>
        let vis2 := setAdd visited nextNode
        let stack2 := stack ++ [nextNode]
        let step1 : TraversalStep :=
          { visited := vis2, current := some nextNode, queue := none, stack := some stack2,
            sourceNode := some cur, targetNode := some nextNode,
            description := "Expand: Found unvisited node " ++ nextNode ++
              ". Mark as visited and push to stack. Edge (" ++ cur ++ " → " ++ nextNode ++
              ")." }
        let tail := dfsLoop g fuel vis2 stack2
        (step1 :: tail.1, tail.2)
      | none =>
        let stack2 := stack.dropLast
        let step1 : TraversalStep :=
          match stack2.getLast? with
          | some returnNode =>
            { visited := visited, current := some returnNode, queue := none,
              stack := some stack2, sourceNode := some returnNode, targetNode := some cur,
              description := "Backtrack: No unvisited neighbors for " ++ cur ++
                ". Return to node " ++ returnNode ++ "." }
          | none =>
            { visited := visited, current := none, queue := none, stack := some stack2,
              sourceNode := none, targetNode := none,
              description := "Backtrack: No unvisited neighbors for " ++ cur ++
                ". Stack now empty." }
        let tail := dfsLoop g fuel visited stack2
        (step1 :: tail.1, tail.2)

/-- Function `depthFirstTraversal` of the unified variant. -/
def depthFirstTraversal (g : Graph) (startNodeId : String) : List TraversalStep :=
  let graphData := g.getGraphData
  if (graphData.nodes.find? (fun node => node.id = startNodeId)).isNone then
    [{ visited := [], current := none, queue := none, stack := some [],
       sourceNode := none, targetNode := none,
       description := "Error: Start node " ++ startNodeId ++ " not found in the graph." }]
  else
    let visited := [startNodeId]
    let stack := [startNodeId]
    let initStep : TraversalStep :=
      { visited := visited, current := some startNodeId, queue := none, stack := some stack,
        sourceNode := none, targetNode := none,
        description := "Initialize: Mark start node " ++ startNodeId ++
          " as visited and push to stack." }
    let res := dfsLoop g (traversalFuel g) visited stack
    initStep :: res.1 ++
      [{ visited := res.2, current := none, queue := none, stack := some [],
         sourceNode := none, targetNode := none,
         description := "Complete: DFS traversal finished." }]

/-- Interface `DijkstraStep` of the unified variant. -/
structure DijkstraStep where
  visited : List String
  current : Option String
  distances : List (String × JNum)
  previous : List (String × Option String)
  description : String
deriving DecidableEq, Repr

/-- State threaded through the unified Dijkstra loop: the selected set `S`,
the distance map `dist` and the predecessor map `parent`. -/
structure DijkState2 where
  S : List String
  dist : List (String × JNum)
  parent : List (String × Option String)
deriving DecidableEq, Repr

/-- Initialization of `dist` and `parent` in the unified Dijkstra variant:
direct-edge cost from the source (via `getEdge(sourceId, node.id)`), `0` for
the source itself, `Infinity` otherwise. -/
def initState (g : Graph) (nodes : List Node) (sourceId : String) : DijkState2 :=
  let st0 := nodes.foldl
    (fun (st : DijkState2) node =>
      let edge := g.getEdge sourceId node.id
      let cost : JNum :=
        match edge with
        | some e =>
          match e.weight with
          | some w => JNum.fin w
          | none => if node.id = sourceId then JNum.fin 0 else JNum.inf
        | none => if node.id = sourceId then JNum.fin 0 else JNum.inf
      { S := st.S,
        dist := mapSet st.dist node.id cost,
        parent := mapSet st.parent node.id (if cost.lt JNum.inf then some sourceId else none) })
    { S := [], dist := [], parent := [] }
  { S := setAdd st0.S sourceId,
    dist := mapSet st0.dist sourceId (JNum.fin 0),
    parent := mapSet st0.parent sourceId none }

/-- Minimum-distance scan of the unified Dijkstra variant (same falsy-zero
coercion `dist.get(node.id) || Infinity` as the first variant). -/
def findMinVertex (nodes : List Node) (S : List String)
    (dist : List (String × JNum)) : JNum × Option String :=
  nodes.foldl
    (fun (st : JNum × Option String) node =>
      if ¬ setHas S node.id then
        if (jsOr (mapGet dist node.id) JNum.inf).lt st.1 then
          (jsOr (mapGet dist node.id) JNum.inf, some node.id)
        else st
      else st)
    (JNum.inf, none)

/-- Edge cost used by the unified Dijkstra relaxation:
`edge && edge.weight !== undefined ? edge.weight : Infinity`. -/
def edgeCostOf (g : Graph) (minVertex nodeId : String) : JNum :=
  match g.getEdge minVertex nodeId with
  | some e =>
    match e.weight with
    | some w => JNum.fin w
    | none => JNum.inf
  | none => JNum.inf

/-- Relaxation of one candidate node through the just-selected vertex in the
unified Dijkstra variant: the edge cost is the weight of `getEdge(minVertex,
node.id)` when that edge exists with a defined weight, else `Infinity`, and
an update happens only when the new distance strictly improves. -/
def relaxThrough (g : Graph) (minVertex : String)
    (acc : DijkState2 × List DijkstraStep) (node : Node) :
    DijkState2 × List DijkstraStep :=
  if setHas acc.1.S node.id then acc
  else
    let edgeCost : JNum := edgeCostOf g minVertex node.id
    if edgeCost.lt JNum.inf then
      let newDist := (jsOr (mapGet acc.1.dist minVertex) (JNum.fin 0)).add edgeCost
      let oldDist := jsOr (mapGet acc.1.dist node.id) JNum.inf
      if newDist.lt oldDist then
        let dist2 := mapSet acc.1.dist node.id newDist
        let parent2 := mapSet acc.1.parent node.id (some minVertex)
        ({ S := acc.1.S, dist := dist2, parent := parent2 },
          acc.2 ++
            [{ visited := acc.1.S, current := some minVertex, distances := dist2,
               previous := parent2,
               description := "Update: Distance to " ++ node.id ++ " via " ++ minVertex ++
                 " from " ++ oldDist.toString ++ " to " ++ newDist.toString ++ "." }])
      else acc
    else acc

/-- Body of the `for (let step = 0; step < n - 1; step++)` loop of the
unified Dijkstra variant; the `Nat` argument counts the remaining
iterations. -/
def dijkstraLoop (g : Graph) (nodes : List Node) : Nat → DijkState2 →
    List DijkstraStep × DijkState2
  | 0, st => ([], st)
  | k + 1, st =>
    let scan := findMinVertex nodes st.S st.dist
    match scan.2 with
    | none =>
      ([{ visited := st.S, current := none, distances := st.dist, previous := st.parent,
          description := "No more reachable vertices found." }], st)
    | some minVertex =>
      if scan.1 = JNum.inf then
        ([{ visited := st.S, current := none, distances := st.dist, previous := st.parent,
            description := "No more reachable vertices found." }], st)
      else
        let S2 := setAdd st.S minVertex
        let selectStep : DijkstraStep :=
          { visited := S2, current := some minVertex, distances := st.dist,
            previous := st.parent,
            description := "Select: Add vertex " ++ minVertex ++ " with distance " ++
              scan.1.toString ++ " to S." }
        let res := nodes.foldl (relaxThrough g minVertex)
          ({ S := S2, dist := st.dist, parent := st.parent }, [])
        let tail := dijkstraLoop g nodes k res.1
        (selectStep :: res.2 ++ tail.1, tail.2)

/-- Function `dijkstraAlgorithm` of the unified variant. -/
def dijkstraAlgorithm (g : Graph) (sourceId : String) : List DijkstraStep :=
  let graphData := g.getGraphData
  if (graphData.nodes.find? (fun node => node.id = sourceId)).isNone then
    [{ visited := [], current := none, distances := [], previous := [],
       description := "Source node " ++ sourceId ++ " not found in graph." }]
  else
    let st := initState g graphData.nodes sourceId
    let initStep : DijkstraStep :=
      { visited := st.S, current := some sourceId, distances := st.dist,
        previous := st.parent,
        description := "Initialize: Set source " ++ sourceId ++ " distance to 0, add to S." }
    let res := dijkstraLoop g graphData.nodes (graphData.nodes.length - 1) st
    initStep :: res.1 ++
      [{ visited := res.2.S, current := none, distances := res.2.dist,
         previous := res.2.parent,
         description := "Complete: Dijkstra" ++ apos ++ "s algorithm finished." }]

end V2

/-! Further definitions used by the verification statements. -/

/-- Adjacency set of a node as the traversal-facing value: the stored set, or
empty when the node has no entry. -/
def adjOf (g : Graph) (u : String) : List String :=
  (mapGet g.adjacencyList u).getD []

/-- Identifier that contains no dash; the derived edge id
`sourceId ++ "-" ++ targetId` is injective on such identifiers. -/
def dashFree (s : String) : Bool :=
  s.data.all (fun c => c ≠ '-')

/-- One mutation of the graph store (the four public mutation operations). -/
inductive Op where
  | addNode (id label : String)
  | removeNode (id : String)
  | addEdge (sourceId targetId : String) (weight : Option Int)
  | removeEdge (sourceId targetId : String)
deriving DecidableEq, Repr

/-- Application of one mutation, keeping the resulting state (a failed
mutation leaves the state unchanged). -/
def applyOp (g : Graph) : Op → Graph
  | Op.addNode id label => (g.addNode id label).2
  | Op.removeNode id => (g.removeNode id).2
  | Op.addEdge s t w => (g.addEdge s t w).2
  | Op.removeEdge s t => (g.removeEdge s t).2

/-- Application of a sequence of mutations. -/
def applyOps (g : Graph) (ops : List Op) : Graph :=
  ops.foldl applyOp g

/-- Side condition of the amended store invariant: node ids are dash-free,
and on an undirected graph an edge is never added while an edge with the
reverse orientation between the same two distinct nodes exists. -/
def sideCondB (g : Graph) : Op → Bool
  | Op.addNode id _ => dashFree id
  | Op.addEdge s t _ => g.directed || decide (s = t) || ¬ mapHasKey g.edges (t ++ "-" ++ s)
  | _ => true

/-- A trace is good when every step satisfies `sideCondB` in the state where
it executes. -/
def goodTraceB (g : Graph) : List Op → Bool
  | [] => true
  | op :: rest => sideCondB g op && goodTraceB (applyOp g op) rest

/-- Modelled from the spec wording for the amended formatter claim: one
rendered line per adjacency entry, `"id -> n1, n2, ..."`, with `none`
standing in exactly when the joined neighbor string is empty. -/
def amendedAdjacencyLine (item : AdjEntry) : String :=
  let j := jsJoin ", " item.adjacentNodes
  item.nodeId ++ " -> " ++ (if j = "" then "none" else j) ++ "\n"

/-- Concatenation of the amended line rendering (the spec-side formatter the
code is compared against). -/
def amendedFormatAdjacencyList : List AdjEntry → String
  | [] => ""
  | item :: rest => amendedAdjacencyLine item ++ amendedFormatAdjacencyList rest

/-- Undirected two-node graph that already stores the edge in orientation
`b → a`; used to exercise ordered-pair duplicate detection. -/
def graphWithReverseEdge : Graph :=
  ((((Graph.empty false false).addNode "a" "a").2.addNode "b" "b").2.addEdge "b" "a" none).2

/-- Mutation trace on an undirected graph that adds both orientations of the
same unordered pair and then removes one of them. -/
def bothOrientationsTrace : List Op :=
  [Op.addNode "a" "a", Op.addNode "b" "b", Op.addEdge "a" "b" none,
   Op.addEdge "b" "a" none, Op.removeEdge "a" "b"]

/-- Lookup of an adjacency set in a bare adjacency map (empty when the key
has no entry), the value the traversals and the invariant reason about. -/
def adjLookup (adj : List (String × List String)) (u : String) : List String :=
  (mapGet adj u).getD []

/-- Strengthened store invariant carried through every mutation of a good
trace; its `adj_iff` field specializes to the adjacency/edge-set
correspondence of the claim. -/
structure GInv (g : Graph) : Prop where
  nodes_wf : ∀ p ∈ g.nodes, p.1 = p.2.id ∧ dashFree p.1 = true
  adj_keys : g.adjacencyList.map Prod.fst = g.nodes.map Prod.fst
  edges_wf : ∀ p ∈ g.edges, p.1 = p.2.source ++ "-" ++ p.2.target ∧
    mapHasKey g.nodes p.2.source = true ∧ mapHasKey g.nodes p.2.target = true
  adj_iff : ∀ u v, v ∈ adjLookup g.adjacencyList u ↔
    (mapHasKey g.edges (u ++ "-" ++ v) = true ∨
      (g.directed = false ∧ mapHasKey g.edges (v ++ "-" ++ u) = true))
  no_both : g.directed = false → ∀ u v, mapHasKey g.edges (u ++ "-" ++ v) = true →
    mapHasKey g.edges (v ++ "-" ++ u) = true → u = v

/-! General lemmas about the JS map and set embeddings. -/

theorem mapGet_nil (k : String) : mapGet ([] : List (String × α)) k = none := rfl

theorem mapGet_cons (k0 : String) (v0 : α) (tl : List (String × α)) (k2 : String) :
    mapGet ((k0, v0) :: tl) k2 = if k0 = k2 then some v0 else mapGet tl k2 := by
  by_cases h : k0 = k2
  · rw [if_pos h]
    unfold mapGet
    rw [List.find?_cons_of_pos]
    · rfl
    · simp [h]
  · rw [if_neg h]
    unfold mapGet
    rw [List.find?_cons_of_neg]
    simp [h]

theorem mapGet_mapSet (m : List (String × α)) (k : String) (v : α) (k2 : String) :
    mapGet (mapSet m k v) k2 = if k2 = k then some v else mapGet m k2 := by
  induction m with
  | nil =>
    unfold mapSet
    rw [mapGet_cons]
    by_cases h : k2 = k
    · rw [if_pos (h.symm), if_pos h]
    · rw [if_neg (fun h2 => h h2.symm), if_neg h, mapGet_nil]
  | cons hd tl ih =>
    obtain ⟨k0, v0⟩ := hd
    unfold mapSet
    by_cases h0 : k0 = k
    · subst h0
      rw [if_pos rfl, mapGet_cons, mapGet_cons]
      by_cases h : k2 = k0
      · rw [if_pos h.symm, if_pos h]
      · rw [if_neg (fun h2 => h h2.symm), if_neg h, if_neg (fun h2 => h h2.symm)]
    · rw [if_neg h0, mapGet_cons, mapGet_cons, ih]
      by_cases h : k0 = k2
      · subst h
        rw [if_pos rfl, if_pos rfl, if_neg (fun h2 : k0 = k => h0 h2)]
      · rw [if_neg h, if_neg h]

theorem mapGet_mapDelete (m : List (String × α)) (k k2 : String) :
    mapGet (mapDelete m k) k2 = if k2 = k then none else mapGet m k2 := by
  induction m with
  | nil => simp [mapDelete, mapGet_nil]
  | cons hd tl ih =>
    obtain ⟨k0, v0⟩ := hd
    unfold mapDelete at ih ⊢
    rw [List.filter_cons]
    by_cases h0 : k0 = k
    · have hd0 : (decide (k0 ≠ k)) = false := by simp [h0]
      rw [hd0]
      simp only [Bool.false_eq_true, if_false]
      rw [ih]
      by_cases h : k2 = k
      · rw [if_pos h, if_pos h]
      · rw [if_neg h, if_neg h, mapGet_cons,
          if_neg (fun h2 : k0 = k2 => h (h2 ▸ h0 ▸ rfl : k2 = k))]
    · have hd0 : (decide (k0 ≠ k)) = true := by simp [h0]
      rw [hd0]
      simp only [if_true]
      rw [mapGet_cons, mapGet_cons, ih]
      by_cases h : k0 = k2
      · subst h
        rw [if_pos rfl, if_pos rfl, if_neg (fun h2 : k0 = k => h0 h2)]
      · rw [if_neg h, if_neg h]

theorem mapHasKey_iff (m : List (String × α)) (k : String) :
    mapHasKey m k = true ↔ ∃ p ∈ m, p.1 = k := by
  unfold mapHasKey mapGet
  have hmap : (Option.map (fun p => p.2) (List.find? (fun p => decide (p.1 = k)) m)).isSome =
      (List.find? (fun p => decide (p.1 = k)) m).isSome := by
    cases List.find? (fun p => decide (p.1 = k)) m <;> rfl
  rw [hmap, List.find?_isSome]
  simp

theorem mapGet_eq_none_iff (m : List (String × α)) (k : String) :
    mapGet m k = none ↔ ∀ p ∈ m, p.1 ≠ k := by
  constructor
  · intro h p hp hk
    have h2 : mapHasKey m k = true := (mapHasKey_iff m k).mpr ⟨p, hp, hk⟩
    rw [mapHasKey, h] at h2
    simp at h2
  · intro h
    cases hg : mapGet m k with
    | none => rfl
    | some v =>
      have h2 : mapHasKey m k = true := by rw [mapHasKey, hg]; rfl
      obtain ⟨p, hp, hk⟩ := (mapHasKey_iff m k).mp h2
      exact absurd hk (h p hp)

theorem mem_setAdd (s : List String) (x y : String) :
    y ∈ setAdd s x ↔ y ∈ s ∨ y = x := by
  by_cases h : x ∈ s
  · rw [setAdd, if_pos h]
    constructor
    · exact Or.inl
    · rintro (hy | hy)
      · exact hy
      · exact hy ▸ h
  · rw [setAdd, if_neg h]
    simp

theorem mem_setDelete (s : List String) (x y : String) :
    y ∈ setDelete s x ↔ y ∈ s ∧ y ≠ x := by
  simp [setDelete]

theorem mapGet_adjAdd (adj : List (String × List String)) (k x k2 : String) :
    mapGet (Graph.adjAdd adj k x) k2 =
      if k2 = k then (mapGet adj k).map (fun s => setAdd s x) else mapGet adj k2 := by
  unfold Graph.adjAdd
  cases hg : mapGet adj k with
  | none => by_cases h : k2 = k <;> simp [h, hg]
  | some s =>
    rw [mapGet_mapSet]
    by_cases h : k2 = k <;> simp [h, hg]

theorem mapGet_adjDelete (adj : List (String × List String)) (k x k2 : String) :
    mapGet (Graph.adjDelete adj k x) k2 =
      if k2 = k then (mapGet adj k).map (fun s => setDelete s x) else mapGet adj k2 := by
  unfold Graph.adjDelete
  cases hg : mapGet adj k with
  | none => by_cases h : k2 = k <;> simp [h, hg]
  | some s =>
    rw [mapGet_mapSet]
    by_cases h : k2 = k <;> simp [h, hg]

/-! Auxiliary lemma for the list formatter. -/

theorem formatAdjacencyList_go (l : List AdjEntry) (acc : String) :
    List.foldl
      (fun acc item =>
        let j := jsJoin ", " item.adjacentNodes
        acc ++ item.nodeId ++ " -> " ++ (if j = "" then "none" else j) ++ "\n")
      acc l = acc ++ amendedFormatAdjacencyList l := by
  induction l generalizing acc with
  | nil => simp [amendedFormatAdjacencyList, String.append_empty]
  | cons item rest ih =>
    rw [List.foldl_cons, ih]
    simp only [amendedFormatAdjacencyList, amendedAdjacencyLine]
    simp [String.append_assoc]

/-! Claim theorems. -/

/-- C4: on the undirected unweighted sample graph (edges inserted in order
1-2, 1-3, 2-3, 2-4, 3-5, 4-5), the peek-then-expand DFS of the unified
variant from node 1 marks nodes visited in the order 1,2,3,5,4 (the visited
set is insertion-ordered, so the final visited list is the visit order), and
the start node is marked visited and pushed before the loop begins, so the
very first emitted snapshot already shows it visited and on the stack. -/
theorem C4_dfs_sample_visit_order :
    ((V2.depthFirstTraversal (createSampleGraph false false) "1").getLast?.map
      (fun s => s.visited)) = some ["1", "2", "3", "5", "4"] ∧
    ((V2.depthFirstTraversal (createSampleGraph false false) "1").head?.map
      (fun s => (s.visited, s.stack, s.description))) =
      some (["1"], some ["1"],
        "Initialize: Mark start node 1 as visited and push to stack.") := by
  exact ⟨rfl, rfl⟩

/-- C5: on the same sample graph, BFS of the unified variant from node 1
marks nodes visited in the order 1,2,3,4,5, and the adjacency sets list the
neighbors in edge insertion order. -/
theorem C5_bfs_sample_visit_order :
    ((V2.breadthFirstTraversal (createSampleGraph false false) "1").getLast?.map
      (fun s => s.visited)) = some ["1", "2", "3", "4", "5"] ∧
    (createSampleGraph false false).getAdjacencyList =
      [{ nodeId := "1", adjacentNodes := ["2", "3"] },
       { nodeId := "2", adjacentNodes := ["1", "3", "4"] },
       { nodeId := "3", adjacentNodes := ["1", "2", "5"] },
       { nodeId := "4", adjacentNodes := ["2", "5"] },
       { nodeId := "5", adjacentNodes := ["3", "4"] }] := by
  exact ⟨rfl, rfl⟩

/-- C1 (evaluation of the code at the failing input): on the weighted
undirected sample graph (1-2:10, 1-3:5, 2-3:2, 2-4:1, 3-5:7, 4-5:4), the
unified Dijkstra variant from node 1 ends with distances
{1:0, 2:10, 3:5, 4:11, 5:12} and predecessors 2 from 1, 3 from 1, 4 from 2,
5 from 3 — not the shortest-path values {2:7, 4:8} with predecessor 2 from 3
asserted by the claim, because `getEdge` keys on the ordered pair and the
relaxation therefore never traverses an undirected edge against its stored
orientation. -/
theorem C1_dijkstra_sample_final_state :
    ((V2.dijkstraAlgorithm (createSampleGraph false true) "1").getLast?.map
      (fun s => (s.distances, s.previous))) =
      some ([("1", JNum.fin 0), ("2", JNum.fin 10), ("3", JNum.fin 5),
             ("4", JNum.fin 11), ("5", JNum.fin 12)],
            [("1", none), ("2", some "1"), ("3", some "1"), ("4", some "2"),
             ("5", some "3")]) ∧
    ((V2.dijkstraAlgorithm (createSampleGraph false true) "1").getLast?.map
      (fun s => mapGet s.distances "2")) ≠ some (some (JNum.fin 7)) ∧
    ((V2.dijkstraAlgorithm (createSampleGraph false true) "1").getLast?.map
      (fun s => mapGet s.distances "4")) ≠ some (some (JNum.fin 8)) := by
  refine ⟨rfl, ?_, ?_⟩ <;> decide

/-- C8 counterexample: an adjacency entry whose neighbor sequence is the
single empty id is rendered as `"x -> none"` although the sequence is not
empty, so the line is not of the form `"id -> n1, n2, ..."` claimed for
every entry with a non-empty neighbor sequence. -/
theorem C8_counterexample :
    formatAdjacencyList [{ nodeId := "x", adjacentNodes := [""] }] = "x -> none\n" ∧
    formatAdjacencyList [{ nodeId := "x", adjacentNodes := [""] }] ≠
      "x" ++ " -> " ++ jsJoin ", " [""] ++ "\n" := by
  exact ⟨rfl, by decide⟩

/-- C8 amended: the list formatter renders one `"id -> joined"` line per
entry with `none` substituted exactly when the joined neighbor string is
empty, the matrix formatter returns the placeholder "No data available" on
an empty matrix or an empty node-id list, and the list formatter returns the
empty string on empty input. -/
theorem C8_amended_formatters :
    (∀ adjList, formatAdjacencyList adjList = amendedFormatAdjacencyList adjList) ∧
    (∀ ids, formatAdjacencyMatrix [] ids = "No data available") ∧
    (∀ m, formatAdjacencyMatrix m [] = "No data available") ∧
    formatAdjacencyList [] = "" := by
  refine ⟨?_, ?_, ?_, rfl⟩
  · intro adjList
    unfold formatAdjacencyList
    rw [formatAdjacencyList_go]
    rw [String.empty_append]
  · intro ids
    simp [formatAdjacencyMatrix]
  · intro m
    simp [formatAdjacencyMatrix]

/-- C7: adding a node whose id is already present fails with the duplicate
error and leaves the graph — and hence its `getGraphData` snapshot —
completely unchanged. -/
theorem C7_addNode_duplicate_unchanged (g : Graph) (id label : String)
    (h : mapHasKey g.nodes id = true) :
    (g.addNode id label).1 =
      Except.error ("Node with id " ++ id ++ " already exists") ∧
    (g.addNode id label).2 = g ∧
    ((g.addNode id label).2).getGraphData = g.getGraphData := by
  unfold Graph.addNode
  rw [if_pos h]
  exact ⟨rfl, rfl, rfl⟩

/-- C7 witness at a concrete duplicate insertion on the sample graph. -/
theorem C7_witness :
    mapHasKey (createSampleGraph false false).nodes "1" = true ∧
    ((createSampleGraph false false).addNode "1" "z").2 = createSampleGraph false false :=
  ⟨by decide,
    (C7_addNode_duplicate_unchanged (createSampleGraph false false) "1" "z" (by decide)).2.1⟩

/-! Structural characterizations of the Graph mutation methods. -/

theorem addNode_present (g : Graph) (id label : String)
    (h : mapHasKey g.nodes id = true) :
    g.addNode id label = (Except.error ("Node with id " ++ id ++ " already exists"), g) := by
  unfold Graph.addNode
  rw [if_pos h]

theorem addNode_absent (g : Graph) (id label : String)
    (h : mapHasKey g.nodes id = false) :
    g.addNode id label =
      (Except.ok { id := id, label := label },
        { g with nodes := mapSet g.nodes id { id := id, label := label },
                 adjacencyList := mapSet g.adjacencyList id [] }) := by
  unfold Graph.addNode
  rw [if_neg (by simp [h])]

theorem removeNode_present (g : Graph) (id : String)
    (h : mapHasKey g.nodes id = true) :
    g.removeNode id =
      (true,
        { g with
          edges := g.edges.filter (fun p => ¬ (p.2.source = id ∨ p.2.target = id)),
          adjacencyList := (mapDelete g.adjacencyList id).map
            (fun p => (p.1, setDelete p.2 id)),
          nodes := mapDelete g.nodes id }) := by
  unfold Graph.removeNode
  rw [if_pos h]

theorem removeNode_absent (g : Graph) (id : String)
    (h : mapHasKey g.nodes id = false) :
    g.removeNode id = (false, g) := by
  unfold Graph.removeNode
  rw [if_neg (by simp [h])]

theorem addEdge_missing_endpoint (g : Graph) (u v : String) (w : Option Int)
    (h : ¬ (mapHasKey g.nodes u = true ∧ mapHasKey g.nodes v = true)) :
    g.addEdge u v w = (Except.error "Source or target node does not exist", g) := by
  unfold Graph.addEdge
  rw [if_pos h]

theorem addEdge_duplicate (g : Graph) (u v : String) (w : Option Int)
    (hu : mapHasKey g.nodes u = true) (hv : mapHasKey g.nodes v = true)
    (he : mapHasKey g.edges (u ++ "-" ++ v) = true) :
    g.addEdge u v w =
      (Except.error ("Edge from " ++ u ++ " to " ++ v ++ " already exists"), g) := by
  unfold Graph.addEdge
  rw [if_neg (fun hc => hc ⟨hu, hv⟩)]
  rw [if_pos he]

theorem addEdge_success (g : Graph) (u v : String) (w : Option Int)
    (hu : mapHasKey g.nodes u = true) (hv : mapHasKey g.nodes v = true)
    (he : mapHasKey g.edges (u ++ "-" ++ v) = false) :
    g.addEdge u v w =
      (Except.ok
        { id := u ++ "-" ++ v, source := u, target := v,
          directed := g.directed, weight := if g.weighted then w else none },
        { g with
          edges := mapSet g.edges (u ++ "-" ++ v)
            { id := u ++ "-" ++ v, source := u, target := v,
              directed := g.directed, weight := if g.weighted then w else none },
          adjacencyList :=
            if ¬ g.directed then
              Graph.adjAdd (Graph.adjAdd g.adjacencyList u v) v u
            else Graph.adjAdd g.adjacencyList u v }) := by
  unfold Graph.addEdge
  rw [if_neg (fun hc => hc ⟨hu, hv⟩)]
  rw [if_neg (by simp [he])]

theorem addEdge_ok_elim (g : Graph) (u v : String) (w : Option Int)
    (h : (g.addEdge u v w).1.isOk = true) :
    mapHasKey g.nodes u = true ∧ mapHasKey g.nodes v = true ∧
      mapHasKey g.edges (u ++ "-" ++ v) = false := by
  by_cases hn : (mapHasKey g.nodes u = true ∧ mapHasKey g.nodes v = true)
  · by_cases he : mapHasKey g.edges (u ++ "-" ++ v) = true
    · rw [addEdge_duplicate g u v w hn.1 hn.2 he] at h
      simp [Except.isOk, Except.toBool] at h
    · exact ⟨hn.1, hn.2, by simp at he; exact he⟩
  · rw [addEdge_missing_endpoint g u v w hn] at h
    simp [Except.isOk, Except.toBool] at h

theorem removeEdge_present (g : Graph) (u v : String)
    (h : mapHasKey g.edges (u ++ "-" ++ v) = true) :
    g.removeEdge u v =
      (true,
        { g with
          edges := mapDelete g.edges (u ++ "-" ++ v),
          adjacencyList :=
            if ¬ g.directed then
              Graph.adjDelete (Graph.adjDelete g.adjacencyList u v) v u
            else Graph.adjDelete g.adjacencyList u v }) := by
  unfold Graph.removeEdge
  rw [if_pos h]

theorem removeEdge_absent (g : Graph) (u v : String)
    (h : mapHasKey g.edges (u ++ "-" ++ v) = false) :
    g.removeEdge u v = (false, g) := by
  unfold Graph.removeEdge
  rw [if_neg (by simp [h])]

/-- Equation lemma: nothing is below a finite value from `Infinity`. -/
theorem JNum.lt_inf_left (x : JNum) : JNum.inf.lt x = false := rfl

/-- Equation lemma: every finite value is below `Infinity`. -/
theorem JNum.lt_fin_inf (a : Int) : (JNum.fin a).lt JNum.inf = true := rfl

/-- C3: in the relaxation step of the unified Dijkstra variant, an unsettled
candidate node is relaxed with edge cost equal to the weight of
`getEdge(minVertex, node.id)` when that edge exists with a defined weight,
and is otherwise treated as unreachable (`Infinity`), in which case the
whole state (distances, predecessors and emitted steps) is left unchanged. -/
theorem C3_relaxation_edge_cost (g : Graph) (minVertex : String)
    (acc : V2.DijkState2 × List V2.DijkstraStep) (node : Node)
    (h : setHas acc.1.S node.id = false) :
    ((g.getEdge minVertex node.id).bind (fun e => e.weight) = none →
      V2.relaxThrough g minVertex acc node = acc) ∧
    (∀ w, (g.getEdge minVertex node.id).bind (fun e => e.weight) = some w →
      mapGet (V2.relaxThrough g minVertex acc node).1.dist node.id =
        (if ((jsOr (mapGet acc.1.dist minVertex) (JNum.fin 0)).add (JNum.fin w)).lt
              (jsOr (mapGet acc.1.dist node.id) JNum.inf) = true then
          some ((jsOr (mapGet acc.1.dist minVertex) (JNum.fin 0)).add (JNum.fin w))
        else mapGet acc.1.dist node.id)) := by
  unfold V2.relaxThrough
  rw [if_neg (by simp [h])]
  constructor
  · intro hnone
    have hc : V2.edgeCostOf g minVertex node.id = JNum.inf := by
      unfold V2.edgeCostOf
      cases hE : g.getEdge minVertex node.id with
      | none => rfl
      | some e =>
        cases hwe : e.weight with
        | none => simp [hwe]
        | some w0 => rw [hE] at hnone; simp [hwe] at hnone
    simp only [hc, JNum.lt_inf_left, Bool.false_eq_true, if_false]
  · intro w hw2
    have hc : V2.edgeCostOf g minVertex node.id = JNum.fin w := by
      unfold V2.edgeCostOf
      cases hE : g.getEdge minVertex node.id with
      | none => rw [hE] at hw2; simp at hw2
      | some e =>
        rw [hE] at hw2
        simp at hw2
        simp [hw2]
    simp only [hc, JNum.lt_fin_inf]
    rw [if_pos trivial]
    by_cases hlt : ((jsOr (mapGet acc.1.dist minVertex) (JNum.fin 0)).add
        (JNum.fin w)).lt (jsOr (mapGet acc.1.dist node.id) JNum.inf) = true
    · rw [if_pos hlt, if_pos hlt]
      simp only
      rw [mapGet_mapSet, if_pos rfl]
    · rw [if_neg hlt, if_neg hlt]

/-- C3 witness: on the weighted sample graph the undirected edge stored as
2-3 is invisible to `getEdge("3","2")`, so relaxing node 2 through vertex 3
leaves the state untouched. -/
theorem C3_witness :
    setHas ({ S := ["1"], dist := [("1", JNum.fin 0)],
              parent := [("1", none)] } : V2.DijkState2).S "2" = false ∧
    V2.relaxThrough (createSampleGraph false true) "3"
        ({ S := ["1"], dist := [("1", JNum.fin 0)], parent := [("1", none)] }, [])
        { id := "2", label := "2" } =
      ({ S := ["1"], dist := [("1", JNum.fin 0)], parent := [("1", none)] }, []) :=
  ⟨by decide,
    (C3_relaxation_edge_cost (createSampleGraph false true) "3"
      ({ S := ["1"], dist := [("1", JNum.fin 0)], parent := [("1", none)] }, [])
      { id := "2", label := "2" } (by decide)).1 (by decide)⟩

/-- C10 amended: on an undirected graph with distinct nodes u and v, after a
successful `addEdge(u,v)`, `addEdge(v,u)` also succeeds provided no edge with
the derived id `v-u` is present (duplicate detection keys on the ordered pair
only), creating a second edge map entry for the same unordered pair; a
subsequent `removeEdge(u,v)` then removes v from adjacency(u) and u from
adjacency(v) even though the `v-u` edge is still present in the edge set. -/
theorem C10_amended_ordered_pair_duplicates (g : Graph) (u v : String) (w w2 : Option Int)
    (hdir : g.directed = false) (huv : u ≠ v)
    (h1 : (g.addEdge u v w).1.isOk = true)
    (h2 : mapHasKey ((g.addEdge u v w).2).edges (v ++ "-" ++ u) = false) :
    ((g.addEdge u v w).2.addEdge v u w2).1.isOk = true ∧
    ((((g.addEdge u v w).2.addEdge v u w2).2).removeEdge u v).1 = true ∧
    mapHasKey (((((g.addEdge u v w).2.addEdge v u w2).2).removeEdge u v).2).edges
      (v ++ "-" ++ u) = true ∧
    v ∉ adjOf (((((g.addEdge u v w).2.addEdge v u w2).2).removeEdge u v).2) u ∧
    u ∉ adjOf (((((g.addEdge u v w).2.addEdge v u w2).2).removeEdge u v).2) v := by
  obtain ⟨hnu, hnv, hne⟩ := addEdge_ok_elim g u v w h1
  have hsucc1 := addEdge_success g u v w hnu hnv hne
  have hg1e : ((g.addEdge u v w).2).edges =
      mapSet g.edges (u ++ "-" ++ v)
        { id := u ++ "-" ++ v, source := u, target := v,
          directed := g.directed, weight := if g.weighted then w else none } := by
    rw [hsucc1]
  have hg1n : ((g.addEdge u v w).2).nodes = g.nodes := by rw [hsucc1]
  have hg1d : ((g.addEdge u v w).2).directed = false := by rw [hsucc1]; exact hdir
  have hQneP : (u ++ "-" ++ v) ≠ (v ++ "-" ++ u) := by
    intro heq
    have hhas : mapHasKey ((g.addEdge u v w).2).edges (u ++ "-" ++ v) = true := by
      rw [hg1e]
      unfold mapHasKey
      rw [mapGet_mapSet, if_pos rfl]
      rfl
    rw [heq] at hhas
    rw [h2] at hhas
    cases hhas
  have hsucc2 := addEdge_success ((g.addEdge u v w).2) v u w2
    (by rw [hg1n]; exact hnv) (by rw [hg1n]; exact hnu) h2
  have hok2 : ((g.addEdge u v w).2.addEdge v u w2).1.isOk = true := by
    rw [hsucc2]
    rfl
  have hg2e : (((g.addEdge u v w).2.addEdge v u w2).2).edges =
      mapSet ((g.addEdge u v w).2).edges (v ++ "-" ++ u)
        { id := v ++ "-" ++ u, source := v, target := u,
          directed := ((g.addEdge u v w).2).directed,
          weight := if ((g.addEdge u v w).2).weighted then w2 else none } := by
    rw [hsucc2]
  have hg2a : (((g.addEdge u v w).2.addEdge v u w2).2).adjacencyList =
      Graph.adjAdd (Graph.adjAdd ((g.addEdge u v w).2).adjacencyList v u) u v := by
    rw [hsucc2]
    simp [hg1d]
  have hg2d : (((g.addEdge u v w).2.addEdge v u w2).2).directed = false := by
    rw [hsucc2]
    exact hg1d
  have hhasuv2 : mapHasKey (((g.addEdge u v w).2.addEdge v u w2).2).edges
      (u ++ "-" ++ v) = true := by
    rw [hg2e]
    unfold mapHasKey
    rw [mapGet_mapSet, if_neg hQneP, hg1e, mapGet_mapSet, if_pos rfl]
    rfl
  have hrem := removeEdge_present (((g.addEdge u v w).2.addEdge v u w2).2) u v hhasuv2
  have hremtrue : ((((g.addEdge u v w).2.addEdge v u w2).2).removeEdge u v).1 = true := by
    rw [hrem]
  have hg3e : (((((g.addEdge u v w).2.addEdge v u w2).2).removeEdge u v).2).edges =
      mapDelete (((g.addEdge u v w).2.addEdge v u w2).2).edges (u ++ "-" ++ v) := by
    rw [hrem]
  have hg3a : (((((g.addEdge u v w).2.addEdge v u w2).2).removeEdge u v).2).adjacencyList =
      Graph.adjDelete
        (Graph.adjDelete (((g.addEdge u v w).2.addEdge v u w2).2).adjacencyList u v) v u := by
    rw [hrem]
    simp [hg2d]
  refine ⟨hok2, hremtrue, ?_, ?_, ?_⟩
  · rw [hg3e]
    unfold mapHasKey
    rw [mapGet_mapDelete, if_neg (fun hh => hQneP hh.symm), hg2e, mapGet_mapSet, if_pos rfl]
    rfl
  · unfold adjOf
    rw [hg3a, mapGet_adjDelete, if_neg huv, mapGet_adjDelete, if_pos rfl]
    cases hA : mapGet (((g.addEdge u v w).2.addEdge v u w2).2).adjacencyList u with
    | none => simp
    | some s => simp [mem_setDelete]
  · unfold adjOf
    rw [hg3a, mapGet_adjDelete, if_pos rfl, mapGet_adjDelete,
      if_neg (fun hh => huv hh.symm)]
    cases hA : mapGet (((g.addEdge u v w).2.addEdge v u w2).2).adjacencyList v with
    | none => simp
    | some s => simp [mem_setDelete]

/-- C10 witness: concrete run on a fresh undirected two-node graph. -/
theorem C10_witness :
    let g0 := (((Graph.empty false false).addNode "a" "a").2.addNode "b" "b").2
    (g0.addEdge "a" "b" none).1.isOk = true ∧
    ((g0.addEdge "a" "b" none).2.addEdge "b" "a" none).1.isOk = true ∧
    ((((g0.addEdge "a" "b" none).2.addEdge "b" "a" none).2).removeEdge "a" "b").1 = true ∧
    mapHasKey (((((g0.addEdge "a" "b" none).2.addEdge "b" "a" none).2).removeEdge
      "a" "b").2).edges ("b" ++ "-" ++ "a") = true ∧
    "b" ∉ adjOf (((((g0.addEdge "a" "b" none).2.addEdge "b" "a" none).2).removeEdge
      "a" "b").2) "a" :=
  ⟨by decide,
    (C10_amended_ordered_pair_duplicates
      ((((Graph.empty false false).addNode "a" "a").2.addNode "b" "b").2)
      "a" "b" none none rfl (by decide) (by decide) (by decide)).1,
    (C10_amended_ordered_pair_duplicates
      ((((Graph.empty false false).addNode "a" "a").2.addNode "b" "b").2)
      "a" "b" none none rfl (by decide) (by decide) (by decide)).2.1,
    (C10_amended_ordered_pair_duplicates
      ((((Graph.empty false false).addNode "a" "a").2.addNode "b" "b").2)
      "a" "b" none none rfl (by decide) (by decide) (by decide)).2.2.1,
    (C10_amended_ordered_pair_duplicates
      ((((Graph.empty false false).addNode "a" "a").2.addNode "b" "b").2)
      "a" "b" none none rfl (by decide) (by decide) (by decide)).2.2.2.1⟩

/-- C10 counterexample to the claim as stated: when an edge stored as `b-a`
already exists on the undirected graph, `addEdge("a","b")` still succeeds but
the subsequent `addEdge("b","a")` fails, so the second insertion does not
always succeed. -/
theorem C10_counterexample :
    (graphWithReverseEdge.addEdge "a" "b" none).1.isOk = true ∧
    ((graphWithReverseEdge.addEdge "a" "b" none).2.addEdge "b" "a" none).1.isOk = false := by
  exact ⟨by decide, by decide⟩

/-- C6: for every graph, each of the six traversal entry points (both
variants of BFS, DFS and Dijkstra) returns, on a start id that does not
resolve to an existing node, exactly the single snapshot that reports the
absent node with an empty visited set; and on an existing start id the
returned snapshot sequence is (finite and) non-empty. -/
theorem C6_missing_start_and_nonempty (g : Graph) (s : String) :
    ((g.getGraphData.nodes.find? (fun node => node.id = s)) = none →
      V1.breadthFirstTraversal g s =
        [{ visited := [], current := none, queue := some [], stack := none,
           description := "Start node " ++ s ++ " not found in the graph." }] ∧
      V1.depthFirstTraversal g s =
        [{ visited := [], current := none, queue := none, stack := some [],
           description := "Start node " ++ s ++ " not found in the graph." }] ∧
      V1.dijkstraAlgorithm g s =
        [{ visited := [], current := none, distances := [], previous := [],
           description := "Start node " ++ s ++ " not found in the graph." }] ∧
      V2.breadthFirstTraversal g s =
        [{ visited := [], current := none, queue := some [], stack := none,
           sourceNode := none, targetNode := none,
           description := "Error: Start node " ++ s ++ " not found in the graph." }] ∧
      V2.depthFirstTraversal g s =
        [{ visited := [], current := none, queue := none, stack := some [],
           sourceNode := none, targetNode := none,
           description := "Error: Start node " ++ s ++ " not found in the graph." }] ∧
      V2.dijkstraAlgorithm g s =
        [{ visited := [], current := none, distances := [], previous := [],
           description := "Source node " ++ s ++ " not found in graph." }]) ∧
    ((g.getGraphData.nodes.find? (fun node => node.id = s)).isSome = true →
      V1.breadthFirstTraversal g s ≠ [] ∧
      V1.depthFirstTraversal g s ≠ [] ∧
      V1.dijkstraAlgorithm g s ≠ [] ∧
      V2.breadthFirstTraversal g s ≠ [] ∧
      V2.depthFirstTraversal g s ≠ [] ∧
      V2.dijkstraAlgorithm g s ≠ []) := by
  constructor
  · intro h
    refine ⟨?_, ?_, ?_, ?_, ?_, ?_⟩
    · simp [V1.breadthFirstTraversal, h]
    · simp [V1.depthFirstTraversal, h]
    · simp [V1.dijkstraAlgorithm, h]
    · simp [V2.breadthFirstTraversal, h]
    · simp [V2.depthFirstTraversal, h]
    · simp [V2.dijkstraAlgorithm, h]
  · intro h
    cases hf : g.getGraphData.nodes.find? (fun node => node.id = s) with
    | none => rw [hf] at h; simp at h
    | some n =>
      refine ⟨?_, ?_, ?_, ?_, ?_, ?_⟩
      · simp [V1.breadthFirstTraversal, hf]
      · simp [V1.depthFirstTraversal, hf]
      · simp [V1.dijkstraAlgorithm, hf]
      · simp [V2.breadthFirstTraversal, hf]
      · simp [V2.depthFirstTraversal, hf]
      · simp [V2.dijkstraAlgorithm, hf]

/-- C6 witness: concrete missing and existing start ids on the sample
graph. -/
theorem C6_witness :
    V1.breadthFirstTraversal (createSampleGraph false false) "missing" =
      [{ visited := [], current := none, queue := some [], stack := none,
         description := "Start node " ++ "missing" ++ " not found in the graph." }] ∧
    V2.breadthFirstTraversal (createSampleGraph false false) "missing" =
      [{ visited := [], current := none, queue := some [], stack := none,
         sourceNode := none, targetNode := none,
         description := "Error: Start node " ++ "missing" ++ " not found in the graph." }] ∧
    V2.dijkstraAlgorithm (createSampleGraph false false) "1" ≠ [] :=
  ⟨((C6_missing_start_and_nonempty (createSampleGraph false false) "missing").1
      (by decide)).1,
   ((C6_missing_start_and_nonempty (createSampleGraph false false) "missing").1
      (by decide)).2.2.2.1,
   ((C6_missing_start_and_nonempty (createSampleGraph false false) "1").2
      (by decide)).2.2.2.2.2⟩

/-- Characterization of the legacy Dijkstra initial distance map. -/
theorem initDistances_get (nodes : List Node) (s id : String) :
    mapGet (V1.initDistances nodes s) id =
      if nodes.any (fun n => n.id = id) then
        some (if id = s then JNum.fin 0 else JNum.inf)
      else none := by
  have haux : ∀ (ns : List Node) (m : List (String × JNum)),
      mapGet (ns.foldl
        (fun m node => mapSet m node.id (if node.id = s then JNum.fin 0 else JNum.inf)) m) id =
        if ns.any (fun n => n.id = id) then
          some (if id = s then JNum.fin 0 else JNum.inf)
        else mapGet m id := by
    intro ns
    induction ns with
    | nil => intro m; simp
    | cons n rest ih =>
      intro m
      rw [List.foldl_cons, ih, List.any_cons]
      by_cases hid : n.id = id
      · by_cases hrest : (rest.any fun n => n.id = id) = true
        · simp [hid, hrest]
        · simp [hid, hrest, mapGet_mapSet]
      · by_cases hrest : (rest.any fun n => n.id = id) = true
        · simp [hid, hrest]
        · simp [hid, hrest, mapGet_mapSet, Ne.symm hid]
  rw [V1.initDistances, haux, mapGet_nil]

/-- The scan step keeps the accumulator `(Infinity, none)` whenever the
candidate's coerced distance is `Infinity`. -/
theorem scanStep_inf (visited : List String) (d : List (String × JNum)) (n : Node)
    (h : jsOr (mapGet d n.id) JNum.inf = JNum.inf) :
    V1.scanStep visited d (JNum.inf, none) n = (JNum.inf, none) := by
  unfold V1.scanStep
  rw [if_neg]
  intro hc
  obtain ⟨-, hlt⟩ := hc
  rw [h] at hlt
  rw [JNum.lt_inf_left] at hlt
  cases hlt

/-- The scan returns `(Infinity, none)` when every node's coerced distance is
`Infinity` — in particular no node is ever selected. -/
theorem findMinNode_none (nodes : List Node) (visited : List String)
    (d : List (String × JNum))
    (h : ∀ n ∈ nodes, jsOr (mapGet d n.id) JNum.inf = JNum.inf) :
    V1.findMinNode nodes visited d = (JNum.inf, none) := by
  unfold V1.findMinNode
  induction nodes with
  | nil => rfl
  | cons n rest ih =>
    rw [List.foldl_cons, scanStep_inf visited d n (h n (by simp))]
    exact ih (fun x hx => h x (by simp [hx]))

/-- C9: for every graph with at least one node and an existing start node,
the legacy Dijkstra variant emits exactly three steps — initialize, "No more
reachable nodes", complete — with the visited set still empty and every
distance other than the source's still `Infinity`, because
`distances.get(node.id) || Infinity` coerces the source's recorded distance
0 to `Infinity`, so the minimum-selection scan never selects any node. -/
theorem C9_legacy_dijkstra_three_steps (g : Graph) (s : String)
    (h0 : g.getGraphData.nodes ≠ [])
    (h1 : (g.getGraphData.nodes.find? (fun node => node.id = s)).isSome = true) :
    V1.dijkstraAlgorithm g s =
      [{ visited := [], current := none,
         distances := V1.initDistances g.getGraphData.nodes s,
         previous := V1.initPrevious g.getGraphData.nodes,
         description := "Initialize Dijkstra" ++ apos ++ "s algorithm with start node " ++ s },
       { visited := [], current := none,
         distances := V1.initDistances g.getGraphData.nodes s,
         previous := V1.initPrevious g.getGraphData.nodes,
         description := "No more reachable nodes" },
       { visited := [], current := none,
         distances := V1.initDistances g.getGraphData.nodes s,
         previous := V1.initPrevious g.getGraphData.nodes,
         description := "Dijkstra" ++ apos ++ "s algorithm complete" }] ∧
    (∀ node ∈ g.getGraphData.nodes, node.id ≠ s →
      mapGet (V1.initDistances g.getGraphData.nodes s) node.id = some JNum.inf) ∧
    mapGet (V1.initDistances g.getGraphData.nodes s) s = some (JNum.fin 0) := by
  have hfin : ∀ n ∈ g.getGraphData.nodes,
      jsOr (mapGet (V1.initDistances g.getGraphData.nodes s) n.id) JNum.inf = JNum.inf := by
    intro n hn
    rw [initDistances_get]
    have hany : g.getGraphData.nodes.any (fun x => x.id = n.id) = true := by
      rw [List.any_eq_true]
      exact ⟨n, hn, by simp⟩
    rw [if_pos hany]
    by_cases hs : n.id = s
    · rw [if_pos hs]; rfl
    · rw [if_neg hs]; rfl
  have hscan : V1.findMinNode g.getGraphData.nodes []
      (V1.initDistances g.getGraphData.nodes s) = (JNum.inf, none) :=
    findMinNode_none _ _ _ hfin
  have hpos : (0 : Nat) < g.getGraphData.nodes.length :=
    List.length_pos.mpr h0
  have hloop : V1.dijkstraLoop g g.getGraphData.nodes (g.getGraphData.nodes.length + 1)
      { visited := [], distances := V1.initDistances g.getGraphData.nodes s,
        previous := V1.initPrevious g.getGraphData.nodes } =
      ([{ visited := [], current := none,
          distances := V1.initDistances g.getGraphData.nodes s,
          previous := V1.initPrevious g.getGraphData.nodes,
          description := "No more reachable nodes" }],
        { visited := [], distances := V1.initDistances g.getGraphData.nodes s,
          previous := V1.initPrevious g.getGraphData.nodes }) := by
    simp only [V1.dijkstraLoop]
    rw [if_pos (show (List.length ([] : List String)) < g.getGraphData.nodes.length
          from hpos)]
    simp only [hscan]
  have hfind : ∀ node ∈ g.getGraphData.nodes, node.id ≠ s →
      mapGet (V1.initDistances g.getGraphData.nodes s) node.id = some JNum.inf := by
    intro n hn hns
    rw [initDistances_get]
    have hany : g.getGraphData.nodes.any (fun x => x.id = n.id) = true := by
      rw [List.any_eq_true]
      exact ⟨n, hn, by simp⟩
    rw [if_pos hany, if_neg hns]
  have hsrc : mapGet (V1.initDistances g.getGraphData.nodes s) s = some (JNum.fin 0) := by
    rw [initDistances_get]
    have hex : ∃ x ∈ g.getGraphData.nodes, (fun node => decide (node.id = s)) x = true :=
      List.find?_isSome.mp h1
    obtain ⟨n, hn, hns⟩ := hex
    have hany : g.getGraphData.nodes.any (fun x => x.id = s) = true := by
      rw [List.any_eq_true]
      exact ⟨n, hn, hns⟩
    rw [if_pos hany, if_pos rfl]
  refine ⟨?_, hfind, hsrc⟩
  unfold V1.dijkstraAlgorithm
  cases hf : g.getGraphData.nodes.find? (fun node => node.id = s) with
  | none => rw [hf] at h1; simp at h1
  | some n =>
    simp only [hf, Option.isNone_some, Bool.false_eq_true, if_false]
    rw [hloop]
    rfl

/-- C9 witness: the legacy Dijkstra on the weighted sample graph from node 1
stops immediately with the three degenerate steps. -/
theorem C9_witness :
    (createSampleGraph false true).getGraphData.nodes ≠ [] ∧
    ((createSampleGraph false true).getGraphData.nodes.find?
      (fun node => node.id = "1")).isSome = true ∧
    V1.dijkstraAlgorithm (createSampleGraph false true) "1" =
      [{ visited := [], current := none,
         distances := V1.initDistances (createSampleGraph false true).getGraphData.nodes "1",
         previous := V1.initPrevious (createSampleGraph false true).getGraphData.nodes,
         description := "Initialize Dijkstra" ++ apos ++ "s algorithm with start node " ++ "1" },
       { visited := [], current := none,
         distances := V1.initDistances (createSampleGraph false true).getGraphData.nodes "1",
         previous := V1.initPrevious (createSampleGraph false true).getGraphData.nodes,
         description := "No more reachable nodes" },
       { visited := [], current := none,
         distances := V1.initDistances (createSampleGraph false true).getGraphData.nodes "1",
         previous := V1.initPrevious (createSampleGraph false true).getGraphData.nodes,
         description := "Dijkstra" ++ apos ++ "s algorithm complete" }] :=
  ⟨by decide, by decide,
    (C9_legacy_dijkstra_three_steps (createSampleGraph false true) "1"
      (by decide) (by decide)).1⟩

/-! Support lemmas for the store invariant (C2). -/

theorem mapHasKey_eq_keys (m : List (String × α)) (k : String) :
    mapHasKey m k = true ↔ k ∈ m.map Prod.fst := by
  rw [mapHasKey_iff, List.mem_map]

theorem mapSet_keys_of_absent (m : List (String × α)) (k : String) (v : α)
    (h : mapGet m k = none) :
    (mapSet m k v).map Prod.fst = m.map Prod.fst ++ [k] := by
  induction m with
  | nil => simp [mapSet]
  | cons hd tl ih =>
    obtain ⟨k0, v0⟩ := hd
    rw [mapGet_cons] at h
    by_cases h0 : k0 = k
    · rw [if_pos h0] at h
      cases h
    · rw [if_neg h0] at h
      unfold mapSet
      rw [if_neg h0]
      simp [ih h]

theorem mapSet_keys_of_present (m : List (String × α)) (k : String) (v : α)
    (h : mapHasKey m k = true) :
    (mapSet m k v).map Prod.fst = m.map Prod.fst := by
  induction m with
  | nil => rw [mapHasKey, mapGet_nil] at h; cases h
  | cons hd tl ih =>
    obtain ⟨k0, v0⟩ := hd
    by_cases h0 : k0 = k
    · unfold mapSet
      rw [if_pos h0]
      simp [h0]
    · unfold mapSet
      rw [if_neg h0]
      rw [mapHasKey, mapGet_cons, if_neg h0] at h
      simp [ih h]

theorem mapDelete_keys (m : List (String × α)) (k : String) :
    (mapDelete m k).map Prod.fst = (m.map Prod.fst).filter (fun x => x ≠ k) := by
  induction m with
  | nil => rfl
  | cons hd tl ih =>
    obtain ⟨k0, v0⟩ := hd
    unfold mapDelete at ih ⊢
    simp only [ne_eq, decide_not] at ih ⊢
    rw [List.filter_cons, List.map_cons, List.filter_cons]
    by_cases h0 : k0 = k
    · simp [h0, ih]
    · simp [h0, ih]

theorem mapGet_mapSetDelete (m : List (String × List String)) (id k : String) :
    mapGet (m.map (fun p => (p.1, setDelete p.2 id))) k =
      (mapGet m k).map (fun s => setDelete s id) := by
  induction m with
  | nil => rfl
  | cons hd tl ih =>
    obtain ⟨k0, v0⟩ := hd
    rw [List.map_cons, mapGet_cons, mapGet_cons]
    by_cases h0 : k0 = k
    · simp [h0]
    · simp [h0, ih]

theorem mapSetDelete_keys (m : List (String × List String)) (id : String) :
    (m.map (fun p => (p.1, setDelete p.2 id))).map Prod.fst = m.map Prod.fst := by
  rw [List.map_map]
  rfl

theorem adjAdd_keys (adj : List (String × List String)) (k x : String) :
    (Graph.adjAdd adj k x).map Prod.fst = adj.map Prod.fst := by
  unfold Graph.adjAdd
  cases hm : mapGet adj k with
  | none => rfl
  | some s =>
    exact mapSet_keys_of_present adj k (setAdd s x) (by rw [mapHasKey, hm]; rfl)

theorem adjDelete_keys (adj : List (String × List String)) (k x : String) :
    (Graph.adjDelete adj k x).map Prod.fst = adj.map Prod.fst := by
  unfold Graph.adjDelete
  cases hm : mapGet adj k with
  | none => rfl
  | some s =>
    exact mapSet_keys_of_present adj k (setDelete s x) (by rw [mapHasKey, hm]; rfl)

theorem mapHasKey_mapSet (m : List (String × α)) (k : String) (v : α) (k2 : String) :
    mapHasKey (mapSet m k v) k2 = true ↔ (k2 = k ∨ mapHasKey m k2 = true) := by
  unfold mapHasKey
  rw [mapGet_mapSet]
  by_cases h : k2 = k <;> simp [h]

theorem mapHasKey_mapDelete (m : List (String × α)) (k k2 : String) :
    mapHasKey (mapDelete m k) k2 = true ↔ (mapHasKey m k2 = true ∧ k2 ≠ k) := by
  unfold mapHasKey
  rw [mapGet_mapDelete]
  by_cases h : k2 = k <;> simp [h]

theorem mapHasKey_filter (m : List (String × α)) (pred : String × α → Bool) (k : String) :
    mapHasKey (m.filter pred) k = true ↔ ∃ p ∈ m, p.1 = k ∧ pred p = true := by
  rw [mapHasKey_iff]
  constructor
  · rintro ⟨p, hp, rfl⟩
    rw [List.mem_filter] at hp
    exact ⟨p, hp.1, rfl, hp.2⟩
  · rintro ⟨p, hp, rfl, hpred⟩
    exact ⟨p, List.mem_filter.mpr ⟨hp, hpred⟩, rfl⟩

theorem mem_mapSet (m : List (String × α)) (k : String) (v : α) (p : String × α)
    (h : p ∈ mapSet m k v) : p ∈ m ∨ p = (k, v) := by
  induction m with
  | nil =>
    unfold mapSet at h
    simp at h
    exact Or.inr h
  | cons hd tl ih =>
    obtain ⟨k0, v0⟩ := hd
    unfold mapSet at h
    by_cases h0 : k0 = k
    · rw [if_pos h0] at h
      rcases List.mem_cons.mp h with h1 | h1
      · exact Or.inr h1
      · exact Or.inl (List.mem_cons_of_mem _ h1)
    · rw [if_neg h0] at h
      rcases List.mem_cons.mp h with h1 | h1
      · exact Or.inl (h1 ▸ List.mem_cons_self _ _)
      · rcases ih h1 with h2 | h2
        · exact Or.inl (List.mem_cons_of_mem _ h2)
        · exact Or.inr h2

theorem dashFree_not_mem (s : String) : dashFree s = true ↔ '-' ∉ s.data := by
  unfold dashFree
  rw [List.all_eq_true]
  constructor
  · intro h hm
    have := h '-' hm
    simp at this
  · intro h c hc
    simp
    intro hcd
    exact h (hcd ▸ hc)

theorem splitAtDash : ∀ (c a b d : List Char), '-' ∉ c → '-' ∉ d →
    a ++ '-' :: b = c ++ '-' :: d → a = c ∧ b = d := by
  intro c
  induction c with
  | nil =>
    intro a b d hc hd h
    cases a with
    | nil =>
      simp at h
      exact ⟨rfl, h⟩
    | cons a0 as =>
      simp at h
      obtain ⟨ha0, hrest⟩ := h
      exfalso
      apply hd
      rw [← hrest]
      simp
  | cons c0 cs ih =>
    intro a b d hc hd h
    cases a with
    | nil =>
      simp at h
      obtain ⟨hc0, -⟩ := h
      exact absurd (hc0 ▸ List.mem_cons_self c0 cs) hc
    | cons a0 as =>
      simp at h
      obtain ⟨ha, hrest⟩ := h
      have hcs : '-' ∉ cs := fun hm => hc (List.mem_cons_of_mem _ hm)
      obtain ⟨h1, h2⟩ := ih as b d hcs hd hrest
      exact ⟨by rw [ha, h1], h2⟩

theorem edgeIdInj (u v s t : String) (hs : dashFree s = true) (ht : dashFree t = true)
    (h : u ++ "-" ++ v = s ++ "-" ++ t) : u = s ∧ v = t := by
  have hd := congrArg String.data h
  rw [String.data_append, String.data_append, String.data_append, String.data_append] at hd
  have hdash : ("-" : String).data = ['-'] := rfl
  rw [hdash, List.append_assoc, List.append_assoc, List.singleton_append,
    List.singleton_append] at hd
  obtain ⟨h1, h2⟩ := splitAtDash s.data u.data v.data t.data
    ((dashFree_not_mem s).mp hs) ((dashFree_not_mem t).mp ht) hd
  exact ⟨String.ext h1, String.ext h2⟩

theorem mem_adjLookup_adjAdd (adj : List (String × List String)) (k x u0 v0 : String)
    (hk : mapHasKey adj k = true) :
    v0 ∈ adjLookup (Graph.adjAdd adj k x) u0 ↔
      (v0 ∈ adjLookup adj u0 ∨ (u0 = k ∧ v0 = x)) := by
  unfold adjLookup
  rw [mapGet_adjAdd]
  by_cases h : u0 = k
  · rw [if_pos h]
    cases hm : mapGet adj k with
    | none => rw [mapHasKey, hm] at hk; cases hk
    | some s =>
      subst h
      rw [hm]
      simp [mem_setAdd]
  · rw [if_neg h]
    simp [h]

theorem mem_adjLookup_adjDelete (adj : List (String × List String)) (k x u0 v0 : String) :
    v0 ∈ adjLookup (Graph.adjDelete adj k x) u0 ↔
      (v0 ∈ adjLookup adj u0 ∧ ¬ (u0 = k ∧ v0 = x)) := by
  unfold adjLookup
  rw [mapGet_adjDelete]
  by_cases h : u0 = k
  · rw [if_pos h]
    cases hm : mapGet adj k with
    | none =>
      subst h
      rw [hm]
      simp
    | some s =>
      subst h
      rw [hm]
      simp [mem_setDelete]
  · rw [if_neg h]
    simp [h]

theorem mapHasKey_false_iff (m : List (String × α)) (k : String) :
    mapHasKey m k = false ↔ mapGet m k = none := by
  unfold mapHasKey
  cases mapGet m k <;> simp

theorem ginv_empty (directed weighted : Bool) : GInv (Graph.empty directed weighted) := by
  constructor
  · intro p hp
    cases hp
  · rfl
  · intro p hp
    cases hp
  · intro u v
    constructor
    · intro hm
      simp [Graph.empty, adjLookup, mapGet_nil] at hm
    · rintro (h | ⟨-, h⟩) <;> simp [Graph.empty, mapHasKey, mapGet_nil] at h
  · intro _ u v h1 _
    simp [Graph.empty, mapHasKey, mapGet_nil] at h1

theorem ginv_addNode (g : Graph) (id label : String) (hg : GInv g)
    (hdf : dashFree id = true) : GInv (g.addNode id label).2 := by
  have hdf_of_has : ∀ x, mapHasKey g.nodes x = true → dashFree x = true := by
    intro x hx
    obtain ⟨q, hq, hqk⟩ := (mapHasKey_iff _ _).mp hx
    exact hqk ▸ (hg.nodes_wf q hq).2
  by_cases hid : mapHasKey g.nodes id = true
  · rw [addNode_present g id label hid]
    exact hg
  · have hid2 : mapHasKey g.nodes id = false := by
      cases hv : mapHasKey g.nodes id
      · rfl
      · exact absurd hv hid
    have hgetn : mapGet g.nodes id = none := (mapHasKey_false_iff _ _).mp hid2
    have hkeysa : mapHasKey g.adjacencyList id = false := by
      cases hk : mapHasKey g.adjacencyList id
      · rfl
      · rw [mapHasKey_eq_keys, hg.adj_keys, ← mapHasKey_eq_keys] at hk
        rw [hk] at hid2
        cases hid2
    have hgeta : mapGet g.adjacencyList id = none := (mapHasKey_false_iff _ _).mp hkeysa
    rw [addNode_absent g id label hid2]
    constructor
    · show ∀ p ∈ mapSet g.nodes id { id := id, label := label },
        p.1 = p.2.id ∧ dashFree p.1 = true
      intro p hp
      rcases mem_mapSet _ _ _ _ hp with h1 | h1
      · exact hg.nodes_wf p h1
      · subst h1
        exact ⟨rfl, hdf⟩
    · show (mapSet g.adjacencyList id []).map Prod.fst =
        (mapSet g.nodes id { id := id, label := label }).map Prod.fst
      rw [mapSet_keys_of_absent _ _ _ hgeta, mapSet_keys_of_absent _ _ _ hgetn,
        hg.adj_keys]
    · show ∀ p ∈ g.edges, p.1 = p.2.source ++ "-" ++ p.2.target ∧
        mapHasKey (mapSet g.nodes id { id := id, label := label }) p.2.source = true ∧
        mapHasKey (mapSet g.nodes id { id := id, label := label }) p.2.target = true
      intro p hp
      obtain ⟨h1, h2, h3⟩ := hg.edges_wf p hp
      exact ⟨h1, (mapHasKey_mapSet _ _ _ _).mpr (Or.inr h2),
        (mapHasKey_mapSet _ _ _ _).mpr (Or.inr h3)⟩
    · show ∀ u v, v ∈ adjLookup (mapSet g.adjacencyList id []) u ↔
        (mapHasKey g.edges (u ++ "-" ++ v) = true ∨
          (g.directed = false ∧ mapHasKey g.edges (v ++ "-" ++ u) = true))
      intro u v
      unfold adjLookup
      rw [mapGet_mapSet]
      by_cases hu : u = id
      · rw [if_pos hu]
        subst hu
        simp only [Option.getD_some]
        constructor
        · intro hm
          cases hm
        · rintro (h | ⟨-, h⟩)
          · obtain ⟨p, hp, hpk⟩ := (mapHasKey_iff _ _).mp h
            obtain ⟨h1, h2, h3⟩ := hg.edges_wf p hp
            obtain ⟨hus, -⟩ := edgeIdInj u v p.2.source p.2.target
              (hdf_of_has _ h2) (hdf_of_has _ h3) (by rw [← hpk, h1])
            rw [← hus] at h2
            rw [h2] at hid2
            cases hid2
          · obtain ⟨p, hp, hpk⟩ := (mapHasKey_iff _ _).mp h
            obtain ⟨h1, h2, h3⟩ := hg.edges_wf p hp
            obtain ⟨-, hut⟩ := edgeIdInj v u p.2.source p.2.target
              (hdf_of_has _ h2) (hdf_of_has _ h3) (by rw [← hpk, h1])
            rw [← hut] at h3
            rw [h3] at hid2
            cases hid2
      · rw [if_neg hu]
        exact hg.adj_iff u v
    · show g.directed = false → ∀ u v, mapHasKey g.edges (u ++ "-" ++ v) = true →
        mapHasKey g.edges (v ++ "-" ++ u) = true → u = v
      exact hg.no_both

theorem ginv_removeNode (g : Graph) (id : String) (hg : GInv g) :
    GInv (g.removeNode id).2 := by
  have hdf_of_has : ∀ x, mapHasKey g.nodes x = true → dashFree x = true := by
    intro x hx
    obtain ⟨q, hq, hqk⟩ := (mapHasKey_iff _ _).mp hx
    exact hqk ▸ (hg.nodes_wf q hq).2
  by_cases hid : mapHasKey g.nodes id = true
  swap
  · have hid2 : mapHasKey g.nodes id = false := by
      cases hv : mapHasKey g.nodes id
      · rfl
      · exact absurd hv hid
    rw [removeNode_absent g id hid2]
    exact hg
  · rw [removeNode_present g id hid]
    have hasE : ∀ u v : String,
        mapHasKey (g.edges.filter (fun p => ¬ (p.2.source = id ∨ p.2.target = id)))
          (u ++ "-" ++ v) = true ↔
        (mapHasKey g.edges (u ++ "-" ++ v) = true ∧ u ≠ id ∧ v ≠ id) := by
      intro u v
      rw [mapHasKey_filter]
      constructor
      · rintro ⟨p, hp, hpk, hpred⟩
        obtain ⟨h1, h2, h3⟩ := hg.edges_wf p hp
        obtain ⟨hus, hvt⟩ := edgeIdInj u v p.2.source p.2.target
          (hdf_of_has _ h2) (hdf_of_has _ h3) (by rw [← hpk, h1])
        have hp2 : ¬ (p.2.source = id ∨ p.2.target = id) := by simpa using hpred
        refine ⟨(mapHasKey_iff _ _).mpr ⟨p, hp, hpk⟩, ?_, ?_⟩
        · intro hu
          exact hp2 (Or.inl (by rw [← hus]; exact hu))
        · intro hv
          exact hp2 (Or.inr (by rw [← hvt]; exact hv))
      · rintro ⟨h, hu, hv⟩
        obtain ⟨p, hp, hpk⟩ := (mapHasKey_iff _ _).mp h
        obtain ⟨h1, h2, h3⟩ := hg.edges_wf p hp
        obtain ⟨hus, hvt⟩ := edgeIdInj u v p.2.source p.2.target
          (hdf_of_has _ h2) (hdf_of_has _ h3) (by rw [← hpk, h1])
        refine ⟨p, hp, hpk, ?_⟩
        simp only [decide_eq_true_eq]
        rintro (hc | hc)
        · exact hu (by rw [hus, hc])
        · exact hv (by rw [hvt, hc])
    have hadj : ∀ u, adjLookup
        ((mapDelete g.adjacencyList id).map (fun p => (p.1, setDelete p.2 id))) u =
        if u = id then [] else setDelete (adjLookup g.adjacencyList u) id := by
      intro u
      unfold adjLookup
      rw [mapGet_mapSetDelete, mapGet_mapDelete]
      by_cases hu : u = id
      · rw [if_pos hu, if_pos hu]
        rfl
      · rw [if_neg hu, if_neg hu]
        cases hm : mapGet g.adjacencyList u with
        | none => rfl
        | some s => rfl
    constructor
    · show ∀ p ∈ mapDelete g.nodes id, p.1 = p.2.id ∧ dashFree p.1 = true
      intro p hp
      exact hg.nodes_wf p (List.mem_filter.mp hp).1
    · show ((mapDelete g.adjacencyList id).map
          (fun p => (p.1, setDelete p.2 id))).map Prod.fst =
        (mapDelete g.nodes id).map Prod.fst
      rw [mapSetDelete_keys, mapDelete_keys, mapDelete_keys, hg.adj_keys]
    · show ∀ p ∈ g.edges.filter (fun p => ¬ (p.2.source = id ∨ p.2.target = id)),
        p.1 = p.2.source ++ "-" ++ p.2.target ∧
        mapHasKey (mapDelete g.nodes id) p.2.source = true ∧
        mapHasKey (mapDelete g.nodes id) p.2.target = true
      intro p hp
      obtain ⟨hpm, hpred⟩ := List.mem_filter.mp hp
      obtain ⟨h1, h2, h3⟩ := hg.edges_wf p hpm
      have hp2 : ¬ (p.2.source = id ∨ p.2.target = id) := by simpa using hpred
      exact ⟨h1,
        (mapHasKey_mapDelete _ _ _).mpr ⟨h2, fun hc => hp2 (Or.inl hc)⟩,
        (mapHasKey_mapDelete _ _ _).mpr ⟨h3, fun hc => hp2 (Or.inr hc)⟩⟩
    · show ∀ u v, v ∈ adjLookup
          ((mapDelete g.adjacencyList id).map (fun p => (p.1, setDelete p.2 id))) u ↔
        (mapHasKey (g.edges.filter (fun p => ¬ (p.2.source = id ∨ p.2.target = id)))
            (u ++ "-" ++ v) = true ∨
          (g.directed = false ∧
            mapHasKey (g.edges.filter (fun p => ¬ (p.2.source = id ∨ p.2.target = id)))
              (v ++ "-" ++ u) = true))
      intro u v
      rw [hadj u]
      by_cases hu : u = id
      · rw [if_pos hu]
        subst hu
        constructor
        · intro hm
          cases hm
        · rintro (h | ⟨-, h⟩)
          · exact absurd rfl ((hasE u v).mp h).2.1
          · exact absurd rfl ((hasE v u).mp h).2.2
      · rw [if_neg hu, mem_setDelete]
        constructor
        · rintro ⟨hmem, hvne⟩
          rcases (hg.adj_iff u v).mp hmem with h | ⟨hdir, h⟩
          · exact Or.inl ((hasE u v).mpr ⟨h, hu, hvne⟩)
          · exact Or.inr ⟨hdir, (hasE v u).mpr ⟨h, hvne, hu⟩⟩
        · rintro (h | ⟨hdir, h⟩)
          · obtain ⟨h1, -, h3⟩ := (hasE u v).mp h
            exact ⟨(hg.adj_iff u v).mpr (Or.inl h1), h3⟩
          · obtain ⟨h1, h2, -⟩ := (hasE v u).mp h
            exact ⟨(hg.adj_iff u v).mpr (Or.inr ⟨hdir, h1⟩), h2⟩
    · show g.directed = false → ∀ u v,
        mapHasKey (g.edges.filter (fun p => ¬ (p.2.source = id ∨ p.2.target = id)))
          (u ++ "-" ++ v) = true →
        mapHasKey (g.edges.filter (fun p => ¬ (p.2.source = id ∨ p.2.target = id)))
          (v ++ "-" ++ u) = true → u = v
      intro hdir u v h1 h2
      exact hg.no_both hdir u v ((hasE u v).mp h1).1 ((hasE v u).mp h2).1

theorem ginv_dashFree (g : Graph) (hg : GInv g) :
    ∀ x, mapHasKey g.nodes x = true → dashFree x = true := by
  intro x hx
  obtain ⟨q, hq, hqk⟩ := (mapHasKey_iff _ _).mp hx
  exact hqk ▸ (hg.nodes_wf q hq).2

theorem ginv_addEdge (g : Graph) (u v : String) (w : Option Int) (hg : GInv g)
    (hside : g.directed = true ∨ u = v ∨ mapHasKey g.edges (v ++ "-" ++ u) = false) :
    GInv (g.addEdge u v w).2 := by
  by_cases hn : (mapHasKey g.nodes u = true ∧ mapHasKey g.nodes v = true)
  swap
  · rw [addEdge_missing_endpoint g u v w hn]
    exact hg
  by_cases he : mapHasKey g.edges (u ++ "-" ++ v) = true
  · rw [addEdge_duplicate g u v w hn.1 hn.2 he]
    exact hg
  have he2 : mapHasKey g.edges (u ++ "-" ++ v) = false := by
    cases hv : mapHasKey g.edges (u ++ "-" ++ v)
    · rfl
    · exact absurd hv he
  rw [addEdge_success g u v w hn.1 hn.2 he2]
  have hdfu : dashFree u = true := ginv_dashFree g hg u hn.1
  have hdfv : dashFree v = true := ginv_dashFree g hg v hn.2
  have hasAdjU : mapHasKey g.adjacencyList u = true := by
    rw [mapHasKey_eq_keys, hg.adj_keys, ← mapHasKey_eq_keys]
    exact hn.1
  have hasAdjV : mapHasKey g.adjacencyList v = true := by
    rw [mapHasKey_eq_keys, hg.adj_keys, ← mapHasKey_eq_keys]
    exact hn.2
  have hasE2 : ∀ a b : String,
      mapHasKey (mapSet g.edges (u ++ "-" ++ v)
        { id := u ++ "-" ++ v, source := u, target := v,
          directed := g.directed, weight := if g.weighted then w else none })
        (a ++ "-" ++ b) = true ↔
      ((a = u ∧ b = v) ∨ mapHasKey g.edges (a ++ "-" ++ b) = true) := by
    intro a b
    rw [mapHasKey_mapSet]
    constructor
    · rintro (h | h)
      · exact Or.inl (edgeIdInj a b u v hdfu hdfv h)
      · exact Or.inr h
    · rintro (⟨ha, hb⟩ | h)
      · exact Or.inl (by rw [ha, hb])
      · exact Or.inr h
  constructor
  · exact hg.nodes_wf
  · show (if ¬ g.directed then
        Graph.adjAdd (Graph.adjAdd g.adjacencyList u v) v u
      else Graph.adjAdd g.adjacencyList u v).map Prod.fst = g.nodes.map Prod.fst
    by_cases hdir : g.directed = true
    · rw [if_neg (by simp [hdir]), adjAdd_keys, hg.adj_keys]
    · rw [if_pos (by simp at hdir; simp [hdir]), adjAdd_keys, adjAdd_keys, hg.adj_keys]
  · show ∀ p ∈ mapSet g.edges (u ++ "-" ++ v)
        { id := u ++ "-" ++ v, source := u, target := v,
          directed := g.directed, weight := if g.weighted then w else none },
      p.1 = p.2.source ++ "-" ++ p.2.target ∧
      mapHasKey g.nodes p.2.source = true ∧ mapHasKey g.nodes p.2.target = true
    intro p hp
    rcases mem_mapSet _ _ _ _ hp with h1 | h1
    · exact hg.edges_wf p h1
    · subst h1
      exact ⟨rfl, hn.1, hn.2⟩
  · show ∀ a b, b ∈ adjLookup
        (if ¬ g.directed then
          Graph.adjAdd (Graph.adjAdd g.adjacencyList u v) v u
        else Graph.adjAdd g.adjacencyList u v) a ↔
      (mapHasKey (mapSet g.edges (u ++ "-" ++ v)
          { id := u ++ "-" ++ v, source := u, target := v,
            directed := g.directed, weight := if g.weighted then w else none })
          (a ++ "-" ++ b) = true ∨
        (g.directed = false ∧
          mapHasKey (mapSet g.edges (u ++ "-" ++ v)
            { id := u ++ "-" ++ v, source := u, target := v,
              directed := g.directed, weight := if g.weighted then w else none })
            (b ++ "-" ++ a) = true))
    intro a b
    by_cases hdir : g.directed = true
    · rw [if_neg (by simp [hdir])]
      rw [mem_adjLookup_adjAdd _ _ _ _ _ hasAdjU]
      constructor
      · rintro (h | ⟨ha, hb⟩)
        · rcases (hg.adj_iff a b).mp h with h2 | ⟨hd2, h2⟩
          · exact Or.inl ((hasE2 a b).mpr (Or.inr h2))
          · rw [hdir] at hd2
            cases hd2
        · exact Or.inl ((hasE2 a b).mpr (Or.inl ⟨ha, hb⟩))
      · rintro (h | ⟨hd2, h⟩)
        · rcases (hasE2 a b).mp h with ⟨ha, hb⟩ | h2
          · exact Or.inr ⟨ha, hb⟩
          · exact Or.inl ((hg.adj_iff a b).mpr (Or.inl h2))
        · rw [hdir] at hd2
          cases hd2
    · have hdir2 : g.directed = false := by
        cases hv : g.directed
        · rfl
        · exact absurd hv hdir
      rw [if_pos (by simp [hdir2])]
      have hasAdjV2 : mapHasKey (Graph.adjAdd g.adjacencyList u v) v = true := by
        rw [mapHasKey_eq_keys, adjAdd_keys, ← mapHasKey_eq_keys]
        exact hasAdjV
      rw [mem_adjLookup_adjAdd _ _ _ _ _ hasAdjV2,
        mem_adjLookup_adjAdd _ _ _ _ _ hasAdjU]
      constructor
      · rintro ((h | ⟨ha, hb⟩) | ⟨ha, hb⟩)
        · rcases (hg.adj_iff a b).mp h with h2 | ⟨-, h2⟩
          · exact Or.inl ((hasE2 a b).mpr (Or.inr h2))
          · exact Or.inr ⟨hdir2, (hasE2 b a).mpr (Or.inr h2)⟩
        · exact Or.inl ((hasE2 a b).mpr (Or.inl ⟨ha, hb⟩))
        · exact Or.inr ⟨hdir2, (hasE2 b a).mpr (Or.inl ⟨hb, ha⟩)⟩
      · rintro (h | ⟨-, h⟩)
        · rcases (hasE2 a b).mp h with ⟨ha, hb⟩ | h2
          · exact Or.inl (Or.inr ⟨ha, hb⟩)
          · exact Or.inl (Or.inl ((hg.adj_iff a b).mpr (Or.inl h2)))
        · rcases (hasE2 b a).mp h with ⟨hb, ha⟩ | h2
          · exact Or.inr ⟨ha, hb⟩
          · exact Or.inl (Or.inl ((hg.adj_iff a b).mpr (Or.inr ⟨hdir2, h2⟩)))
  · show g.directed = false → ∀ a b,
      mapHasKey (mapSet g.edges (u ++ "-" ++ v)
        { id := u ++ "-" ++ v, source := u, target := v,
          directed := g.directed, weight := if g.weighted then w else none })
        (a ++ "-" ++ b) = true →
      mapHasKey (mapSet g.edges (u ++ "-" ++ v)
        { id := u ++ "-" ++ v, source := u, target := v,
          directed := g.directed, weight := if g.weighted then w else none })
        (b ++ "-" ++ a) = true → a = b
    intro hdir a b h1 h2
    have hside2 : u = v ∨ mapHasKey g.edges (v ++ "-" ++ u) = false := by
      rcases hside with hd | hs2
      · rw [hdir] at hd
        cases hd
      · exact hs2
    rcases (hasE2 a b).mp h1 with ⟨ha, hb⟩ | h1o
    · rcases (hasE2 b a).mp h2 with ⟨hb2, ha2⟩ | h2o
      · rw [ha, ← hb2]
      · rcases hside2 with huv | hnovu
        · rw [ha, hb, huv]
        · rw [hb, ha] at h2o
          rw [h2o] at hnovu
          cases hnovu
    · rcases (hasE2 b a).mp h2 with ⟨hb2, ha2⟩ | h2o
      · rcases hside2 with huv | hnovu
        · rw [ha2, hb2, huv]
        · rw [ha2, hb2] at h1o
          rw [h1o] at hnovu
          cases hnovu
      · exact hg.no_both hdir a b h1o h2o

theorem ginv_removeEdge (g : Graph) (u v : String) (hg : GInv g) :
    GInv (g.removeEdge u v).2 := by
  by_cases hP : mapHasKey g.edges (u ++ "-" ++ v) = true
  swap
  · have hP2 : mapHasKey g.edges (u ++ "-" ++ v) = false := by
      cases hv : mapHasKey g.edges (u ++ "-" ++ v)
      · rfl
      · exact absurd hv hP
    rw [removeEdge_absent g u v hP2]
    exact hg
  · obtain ⟨p, hp, hpk⟩ := (mapHasKey_iff _ _).mp hP
    obtain ⟨h1, h2, h3⟩ := hg.edges_wf p hp
    obtain ⟨hus, hvt⟩ := edgeIdInj u v p.2.source p.2.target
      (ginv_dashFree g hg _ h2) (ginv_dashFree g hg _ h3) (by rw [← hpk, h1])
    have hdfu : dashFree u = true := by rw [hus]; exact ginv_dashFree g hg _ h2
    have hdfv : dashFree v = true := by rw [hvt]; exact ginv_dashFree g hg _ h3
    rw [removeEdge_present g u v hP]
    have has3 : ∀ a b : String,
        mapHasKey (mapDelete g.edges (u ++ "-" ++ v)) (a ++ "-" ++ b) = true ↔
        (mapHasKey g.edges (a ++ "-" ++ b) = true ∧ ¬ (a = u ∧ b = v)) := by
      intro a b
      rw [mapHasKey_mapDelete]
      constructor
      · rintro ⟨h, hne⟩
        exact ⟨h, fun hc => hne (by rw [hc.1, hc.2])⟩
      · rintro ⟨h, hne⟩
        exact ⟨h, fun hk => hne (edgeIdInj a b u v hdfu hdfv hk)⟩
    constructor
    · exact hg.nodes_wf
    · show (if ¬ g.directed then
          Graph.adjDelete (Graph.adjDelete g.adjacencyList u v) v u
        else Graph.adjDelete g.adjacencyList u v).map Prod.fst = g.nodes.map Prod.fst
      by_cases hdir : g.directed = true
      · rw [if_neg (by simp [hdir]), adjDelete_keys, hg.adj_keys]
      · rw [if_pos (by simp at hdir; simp [hdir]), adjDelete_keys, adjDelete_keys,
          hg.adj_keys]
    · show ∀ q ∈ mapDelete g.edges (u ++ "-" ++ v),
        q.1 = q.2.source ++ "-" ++ q.2.target ∧
        mapHasKey g.nodes q.2.source = true ∧ mapHasKey g.nodes q.2.target = true
      intro q hq
      exact hg.edges_wf q (List.mem_filter.mp hq).1
    · show ∀ a b, b ∈ adjLookup
          (if ¬ g.directed then
            Graph.adjDelete (Graph.adjDelete g.adjacencyList u v) v u
          else Graph.adjDelete g.adjacencyList u v) a ↔
        (mapHasKey (mapDelete g.edges (u ++ "-" ++ v)) (a ++ "-" ++ b) = true ∨
          (g.directed = false ∧
            mapHasKey (mapDelete g.edges (u ++ "-" ++ v)) (b ++ "-" ++ a) = true))
      intro a b
      by_cases hdir : g.directed = true
      · rw [if_neg (by simp [hdir])]
        rw [mem_adjLookup_adjDelete]
        constructor
        · rintro ⟨hmem, hA⟩
          rcases (hg.adj_iff a b).mp hmem with h | ⟨hd2, h⟩
          · exact Or.inl ((has3 a b).mpr ⟨h, hA⟩)
          · rw [hdir] at hd2
            cases hd2
        · rintro (h | ⟨hd2, h⟩)
          · obtain ⟨h1, hA⟩ := (has3 a b).mp h
            exact ⟨(hg.adj_iff a b).mpr (Or.inl h1), hA⟩
          · rw [hdir] at hd2
            cases hd2
      · have hdir2 : g.directed = false := by
          cases hv : g.directed
          · rfl
          · exact absurd hv hdir
        rw [if_pos (by simp [hdir2])]
        rw [mem_adjLookup_adjDelete, mem_adjLookup_adjDelete]
        constructor
        · rintro ⟨⟨hmem, hA⟩, hB⟩
          rcases (hg.adj_iff a b).mp hmem with h | ⟨-, h⟩
          · exact Or.inl ((has3 a b).mpr ⟨h, hA⟩)
          · exact Or.inr ⟨hdir2, (has3 b a).mpr ⟨h, fun hc => hB ⟨hc.2, hc.1⟩⟩⟩
        · rintro (h | ⟨-, h⟩)
          · obtain ⟨h1, hA⟩ := (has3 a b).mp h
            refine ⟨⟨(hg.adj_iff a b).mpr (Or.inl h1), hA⟩, ?_⟩
            rintro ⟨ha, hb⟩
            rw [ha, hb] at h1
            have huv := hg.no_both hdir2 v u h1 hP
            exact hA ⟨by rw [ha, huv], by rw [hb, ← huv]⟩
          · obtain ⟨h1, hB⟩ := (has3 b a).mp h
            refine ⟨⟨(hg.adj_iff a b).mpr (Or.inr ⟨hdir2, h1⟩), ?_⟩,
              fun hc => hB ⟨hc.2, hc.1⟩⟩
            rintro ⟨ha, hb⟩
            rw [ha, hb] at h1
            have huv := hg.no_both hdir2 v u h1 hP
            exact hB ⟨by rw [hb, ← huv], by rw [ha, huv]⟩
    · show g.directed = false → ∀ a b,
        mapHasKey (mapDelete g.edges (u ++ "-" ++ v)) (a ++ "-" ++ b) = true →
        mapHasKey (mapDelete g.edges (u ++ "-" ++ v)) (b ++ "-" ++ a) = true → a = b
      intro hdir a b ha hb
      exact hg.no_both hdir a b ((has3 a b).mp ha).1 ((has3 b a).mp hb).1

theorem ginv_step (g : Graph) (op : Op) (hg : GInv g)
    (hside : sideCondB g op = true) : GInv (applyOp g op) := by
  cases op with
  | addNode id label =>
    exact ginv_addNode g id label hg (by simpa [sideCondB] using hside)
  | removeNode id =>
    exact ginv_removeNode g id hg
  | addEdge s t w =>
    refine ginv_addEdge g s t w hg ?_
    simp only [sideCondB, Bool.or_eq_true, decide_eq_true_eq] at hside
    rcases hside with (hd | hst) | hns
    · exact Or.inl hd
    · exact Or.inr (Or.inl hst)
    · refine Or.inr (Or.inr ?_)
      cases hv : mapHasKey g.edges (t ++ "-" ++ s)
      · rfl
      · rw [hv] at hns
        simp at hns
  | removeEdge s t =>
    exact ginv_removeEdge g s t hg

theorem ginv_trace : ∀ (ops : List Op) (g : Graph), GInv g →
    goodTraceB g ops = true → GInv (applyOps g ops) := by
  intro ops
  induction ops with
  | nil =>
    intro g hg _
    exact hg
  | cons op rest ih =>
    intro g hg htrace
    unfold goodTraceB at htrace
    rw [Bool.and_eq_true] at htrace
    exact ih (applyOp g op) (ginv_step g op hg htrace.1) htrace.2

/-- C2 amended: starting from the empty graph, for every sequence of
mutations in which node ids are dash-free and, on an undirected graph, an
edge is never added while an edge with the reverse orientation between the
same two distinct nodes exists, the resulting state satisfies: in a directed
graph an edge (u,v) exists iff v is in adjacency(u); in an undirected graph
an edge between u and v (stored in either orientation) exists iff v is in
adjacency(u) and u is in adjacency(v). -/
theorem C2_amended_adjacency_invariant (directed weighted : Bool) (ops : List Op)
    (h : goodTraceB (Graph.empty directed weighted) ops = true) :
    ((applyOps (Graph.empty directed weighted) ops).directed = true →
      ∀ u v, mapHasKey (applyOps (Graph.empty directed weighted) ops).edges
          (u ++ "-" ++ v) = true ↔
        v ∈ adjOf (applyOps (Graph.empty directed weighted) ops) u) ∧
    ((applyOps (Graph.empty directed weighted) ops).directed = false →
      ∀ u v, (mapHasKey (applyOps (Graph.empty directed weighted) ops).edges
            (u ++ "-" ++ v) = true ∨
          mapHasKey (applyOps (Graph.empty directed weighted) ops).edges
            (v ++ "-" ++ u) = true) ↔
        (v ∈ adjOf (applyOps (Graph.empty directed weighted) ops) u ∧
         u ∈ adjOf (applyOps (Graph.empty directed weighted) ops) v)) := by
  have hinv : GInv (applyOps (Graph.empty directed weighted) ops) :=
    ginv_trace ops (Graph.empty directed weighted) (ginv_empty directed weighted) h
  constructor
  · intro hdir u v
    constructor
    · intro hhas
      exact (hinv.adj_iff u v).mpr (Or.inl hhas)
    · intro hmem
      rcases (hinv.adj_iff u v).mp hmem with h2 | ⟨hd2, -⟩
      · exact h2
      · rw [hdir] at hd2
        cases hd2
  · intro hdir u v
    constructor
    · rintro (hhas | hhas)
      · exact ⟨(hinv.adj_iff u v).mpr (Or.inl hhas),
          (hinv.adj_iff v u).mpr (Or.inr ⟨hdir, hhas⟩)⟩
      · exact ⟨(hinv.adj_iff u v).mpr (Or.inr ⟨hdir, hhas⟩),
          (hinv.adj_iff v u).mpr (Or.inl hhas)⟩
    · rintro ⟨h1, -⟩
      rcases (hinv.adj_iff u v).mp h1 with h2 | ⟨-, h2⟩
      · exact Or.inl h2
      · exact Or.inr h2

/-- C2 witness: a concrete good trace on an undirected graph. -/
theorem C2_witness :
    goodTraceB (Graph.empty false false)
      [Op.addNode "a" "a", Op.addNode "b" "b", Op.addEdge "a" "b" none,
       Op.removeEdge "a" "b"] = true ∧
    ((applyOps (Graph.empty false false)
        [Op.addNode "a" "a", Op.addNode "b" "b", Op.addEdge "a" "b" none,
         Op.removeEdge "a" "b"]).directed = false →
      ∀ u v, (mapHasKey (applyOps (Graph.empty false false)
            [Op.addNode "a" "a", Op.addNode "b" "b", Op.addEdge "a" "b" none,
             Op.removeEdge "a" "b"]).edges (u ++ "-" ++ v) = true ∨
          mapHasKey (applyOps (Graph.empty false false)
            [Op.addNode "a" "a", Op.addNode "b" "b", Op.addEdge "a" "b" none,
             Op.removeEdge "a" "b"]).edges (v ++ "-" ++ u) = true) ↔
        (v ∈ adjOf (applyOps (Graph.empty false false)
            [Op.addNode "a" "a", Op.addNode "b" "b", Op.addEdge "a" "b" none,
             Op.removeEdge "a" "b"]) u ∧
         u ∈ adjOf (applyOps (Graph.empty false false)
            [Op.addNode "a" "a", Op.addNode "b" "b", Op.addEdge "a" "b" none,
             Op.removeEdge "a" "b"]) v)) :=
  ⟨by decide,
    (C2_amended_adjacency_invariant false false
      [Op.addNode "a" "a", Op.addNode "b" "b", Op.addEdge "a" "b" none,
       Op.removeEdge "a" "b"] (by decide)).2⟩

/-- C2 counterexample to the claim as stated: adding both orientations of
the same unordered pair on an undirected graph and then removing one of them
leaves the edge stored as b-a in the edge set while both adjacency sets are
already empty, so the biconditional fails. -/
theorem C2_counterexample :
    mapHasKey (applyOps (Graph.empty false false) bothOrientationsTrace).edges
      ("b" ++ "-" ++ "a") = true ∧
    ¬ (∀ u v, mapHasKey (applyOps (Graph.empty false false) bothOrientationsTrace).edges
        (u ++ "-" ++ v) = true ↔
        (v ∈ adjOf (applyOps (Graph.empty false false) bothOrientationsTrace) u ∧
         u ∈ adjOf (applyOps (Graph.empty false false) bothOrientationsTrace) v)) := by
  constructor
  · decide
  · intro h
    exact absurd ((h "b" "a").mp (by decide)).1 (by decide)
